import Mathlib

/-!
# Verification of the Rugved AI conversation engine (src/src/App.js)

The repository contains two variants of `App.js` (an original and a revised
build, concatenated in the source tree).  Both define `handleSendMessage`,
the conversation turn pipeline; the second variant additionally cleans up
the model reply, uses a fixed error string, and formats display text.

We embed the pipeline as a pure step function over an explicit state: the
asynchronous `fetch` is modelled by a `FetchOutcome` oracle argument, and
the `Date.now()` clock reads by natural-number parameters.  Strings are
`List Char`; a JavaScript value that may be `undefined` is an `Option`.
All definitions are structural recursions, so they evaluate by `decide`.
-/

/-- The character class of JavaScript `\s` (and of `String.prototype.trim`):
whitespace, line terminators and the Unicode space separators. -/
def isJsSpace (c : Char) : Bool :=
  c = ' ' || c = '\t' || c = '\n' || c = '\r' || c = '\x0B' || c = '\x0C' ||
  c = '\u00A0' || c = '\u1680' || ('\u2000' ≤ c && c ≤ '\u200A') ||
  c = '\u2028' || c = '\u2029' || c = '\u202F' || c = '\u205F' ||
  c = '\u3000' || c = '\uFEFF'

/-- JavaScript `String.prototype.trim`: drop `\s` characters from both ends. -/
def trimChars (l : List Char) : List Char :=
  ((l.dropWhile isJsSpace).reverse.dropWhile isJsSpace).reverse

/-- The backquote character (written by code to keep the source ASCII-clean). -/
def backtick : Char := Char.ofNat 96

/-- The double-quote character. -/
def quoteChar : Char := Char.ofNat 34

/-! ## Speech clean-up (`cleanText` inside `speak`, second variant)

`speak` runs `text.replace(/<[^>]*>/g, '').replace(/\*\*/g, '')
.replace(/\*/g, '').replace(/BACKTICK/g, '').replace(/\n/g, ' ')
.replace(/\s+/g, ' ').trim()`.  Each `replace` is embedded as a scan that
mirrors the left-to-right, non-overlapping regex replacement. -/

/-- Scanner for `replace(/<[^>]*>/g, '')`.  A match starts at a `<` and runs
to the first following `>`; `buf` holds the characters consumed since the
pending `<` (in reverse).  A `<` with no later `>` never matches and is
emitted verbatim at the end of input. -/
def removeTagsAux : Option (List Char) → List Char → List Char
  | none, [] => []
  | some buf, [] => '<' :: buf.reverse
  | none, c :: r =>
      if c = '<' then removeTagsAux (some []) r
      else c :: removeTagsAux none r
  | some buf, c :: r =>
      if c = '>' then removeTagsAux none r
      else removeTagsAux (some (c :: buf)) r

/-- `text.replace(/<[^>]*>/g, '')`. -/
def removeTags (l : List Char) : List Char := removeTagsAux none l

/-- `text.replace(/\*\*/g, '')`: delete non-overlapping `**` pairs, left to
right. -/
def removeDoubleStar : List Char → List Char
  | [] => []
  | '*' :: '*' :: r => removeDoubleStar r
  | c :: r => c :: removeDoubleStar r

/-- `text.replace(/\*/g, '')`. -/
def removeStar (l : List Char) : List Char := l.filter (fun c => !(c = '*'))

/-- `text.replace(/BACKTICK/g, '')`. -/
def removeBacktick (l : List Char) : List Char := l.filter (fun c => !(c = backtick))

/-- `text.replace(/\n/g, ' ')`. -/
def newlineToSpace (l : List Char) : List Char :=
  l.map (fun c => if c = '\n' then ' ' else c)

/-- Scanner for `replace(/\s+/g, ' ')`: each maximal whitespace run becomes a
single space.  The flag records whether the previous character belonged to a
run whose space is already emitted. -/
def collapseWsAux : Bool → List Char → List Char
  | _, [] => []
  | prevWs, c :: r =>
      if isJsSpace c then
        if prevWs then collapseWsAux true r
        else ' ' :: collapseWsAux true r
      else c :: collapseWsAux false r

/-- `text.replace(/\s+/g, ' ')`. -/
def collapseWs (l : List Char) : List Char := collapseWsAux false l

/-- The speech-safe transform: the `cleanText` pipeline inside `speak` of the
second variant (App.js lines 595-611). -/
def cleanText (l : List Char) : List Char :=
  trimChars (collapseWs (newlineToSpace (removeBacktick (removeStar
    (removeDoubleStar (removeTags l))))))

/-! ## Response clean-up (second variant success path, App.js lines 554-561)

`aiResponseText.replace(/\*\*/g,'').replace(/\*/g,'')
.replace(/^\s*[-*]\s*/gm,'').replace(/^\s*[0-9]+\.\s*/gm,'')
.replace(/^\s*[-*+]\s*/gm,'').replace(/\n{3,}/g,'\n\n').trim()`. -/

/-- Scanner state for `replace(/^\s*M\s*/gm, '')` where `M` is a marker
class.  `anchored buf`: the scan position is (or follows into) a `^`-anchored
potential match whose leading `\s*` consumed `buf` (reversed).  `afterMark
nl`: a marker matched and the trailing `\s*` is being consumed; `nl` records
whether the last consumed character was `'\n'` (so the position after the
match is again `^`-anchored).  `plain`: mid-line, no match possible until
the next `'\n'`. -/
inductive MarkState
  | anchored (buf : List Char)
  | afterMark (nl : Bool)
  | plain

/-- Scanner for `replace(/^\s*[-*...]\s*/gm, '')` with marker set `marks`.
Multiline `^` matches at position 0 and after every `'\n'`; a match deletes
the maximal leading whitespace run, the marker and the maximal trailing
whitespace run.  A failed anchored attempt emits the buffered run verbatim
(attempts from anchors inside the run fail on the same non-marker
character). -/
def stripMarkAux (marks : List Char) : MarkState → List Char → List Char
  | MarkState.anchored buf, [] => buf.reverse
  | _, [] => []
  | MarkState.anchored buf, c :: r =>
      if isJsSpace c then stripMarkAux marks (MarkState.anchored (c :: buf)) r
      else if c ∈ marks then stripMarkAux marks (MarkState.afterMark false) r
      else buf.reverse ++ c :: stripMarkAux marks MarkState.plain r
  | MarkState.afterMark nl, c :: r =>
      if isJsSpace c then stripMarkAux marks (MarkState.afterMark (c = '\n')) r
      else if nl && c ∈ marks then stripMarkAux marks (MarkState.afterMark false) r
      else c :: stripMarkAux marks MarkState.plain r
  | MarkState.plain, c :: r =>
      c :: stripMarkAux marks
        (if c = '\n' then MarkState.anchored [] else MarkState.plain) r

/-- `text.replace(/^\s*[-*...]\s*/gm, '')` (position 0 is anchored). -/
def stripMarkers (marks : List Char) (l : List Char) : List Char :=
  stripMarkAux marks (MarkState.anchored []) l

/-- Scanner state for `replace(/^\s*[0-9]+\.\s*/gm, '')`: as `MarkState`,
with an extra state for the digit run awaiting its dot. -/
inductive NumState
  | anchored (buf : List Char)
  | digits (wsbuf dbuf : List Char)
  | afterDot (nl : Bool)
  | plain

/-- Scanner for `replace(/^\s*[0-9]+\.\s*/gm, '')`. -/
def stripNumAux : NumState → List Char → List Char
  | NumState.anchored buf, [] => buf.reverse
  | NumState.digits w d, [] => w.reverse ++ d.reverse
  | _, [] => []
  | NumState.anchored buf, c :: r =>
      if isJsSpace c then stripNumAux (NumState.anchored (c :: buf)) r
      else if c.isDigit then stripNumAux (NumState.digits buf [c]) r
      else buf.reverse ++ c :: stripNumAux NumState.plain r
  | NumState.digits w d, c :: r =>
      if c.isDigit then stripNumAux (NumState.digits w (c :: d)) r
      else if c = '.' then stripNumAux (NumState.afterDot false) r
      else w.reverse ++ d.reverse ++ c ::
        stripNumAux (if c = '\n' then NumState.anchored [] else NumState.plain) r
  | NumState.afterDot nl, c :: r =>
      if isJsSpace c then stripNumAux (NumState.afterDot (c = '\n')) r
      else if nl && c.isDigit then stripNumAux (NumState.digits [] [c]) r
      else c :: stripNumAux NumState.plain r
  | NumState.plain, c :: r =>
      c :: stripNumAux (if c = '\n' then NumState.anchored [] else NumState.plain) r

/-- `text.replace(/^\s*[0-9]+\.\s*/gm, '')`. -/
def stripNumMarkers (l : List Char) : List Char :=
  stripNumAux (NumState.anchored []) l

/-- At most two newlines (`min k 2` copies of `'\n'`). -/
def emitNl (k : Nat) : List Char := List.replicate (min k 2) '\n'

/-- Scanner for `replace(/\n{3,}/g, '\n\n')`: `k` counts the pending newline
run; a run of three or more collapses to exactly two. -/
def limitNLAux : Nat → List Char → List Char
  | k, [] => emitNl k
  | k, c :: r =>
      if c = '\n' then limitNLAux (k + 1) r
      else emitNl k ++ c :: limitNLAux 0 r

/-- `text.replace(/\n{3,}/g, '\n\n')`. -/
def limitNewlines (l : List Char) : List Char := limitNLAux 0 l

/-- The clean-up applied to a generated reply before storing it (second
variant, App.js lines 554-561). -/
def cleanupResponseText (t : List Char) : List Char :=
  trimChars (limitNewlines (stripMarkers ['-', '*', '+'] (stripNumMarkers
    (stripMarkers ['-', '*'] (removeStar (removeDoubleStar t))))))

/-! ## Display transform (`formatText`, second variant, App.js lines 623-632)

Each `replace(/D(.*?)D/g, tag)` pass is embedded with a lazy search for the
closing delimiter; `.` does not match `'\n'`, so a match never crosses a
line break.  A pass that cannot close advances one character, exactly like
the regex engine.  Each pass is fuelled by the input length (every step
consumes at least one character), keeping it structurally recursive. -/

/-- Lazy search for a closing `**`: the shortest newline-free prefix
followed by `**`, with the remainder after the `**`. -/
def closeDS : List Char → Option (List Char × List Char)
  | [] => none
  | '*' :: '*' :: r => some ([], r)
  | '\n' :: _ => none
  | c :: r => (closeDS r).map (fun p => (c :: p.1, p.2))

/-- `replace(/\*\*(.*?)\*\*/g, '<strong>$1</strong>')`. -/
def boldPassF : Nat → List Char → List Char
  | 0, l => l
  | _ + 1, [] => []
  | fuel + 1, '*' :: '*' :: r =>
      match closeDS r with
      | some (a, rest) =>
          "<strong>".data ++ a ++ "</strong>".data ++ boldPassF fuel rest
      | none => '*' :: boldPassF fuel ('*' :: r)
  | fuel + 1, c :: r => c :: boldPassF fuel r

def boldPass (l : List Char) : List Char := boldPassF l.length l

/-- Lazy search for a closing `*`. -/
def closeS : List Char → Option (List Char × List Char)
  | [] => none
  | '*' :: r => some ([], r)
  | '\n' :: _ => none
  | c :: r => (closeS r).map (fun p => (c :: p.1, p.2))

/-- `replace(/\*(.*?)\*/g, '<em>$1</em>')`. -/
def emPassF : Nat → List Char → List Char
  | 0, l => l
  | _ + 1, [] => []
  | fuel + 1, '*' :: r =>
      match closeS r with
      | some (a, rest) => "<em>".data ++ a ++ "</em>".data ++ emPassF fuel rest
      | none => '*' :: emPassF fuel r
  | fuel + 1, c :: r => c :: emPassF fuel r

def emPass (l : List Char) : List Char := emPassF l.length l

/-- Lazy search for a closing delimiter character `d` (not crossing a
newline). -/
def closeDelim (d : Char) : List Char → Option (List Char × List Char)
  | [] => none
  | c :: r =>
      if c = d then some ([], r)
      else if c = '\n' then none
      else (closeDelim d r).map (fun p => (c :: p.1, p.2))

/-- `replace(/BACKTICK(.*?)BACKTICK/g, '<code>$1</code>')`. -/
def codePassF : Nat → List Char → List Char
  | 0, l => l
  | _ + 1, [] => []
  | fuel + 1, c :: r =>
      if c = backtick then
        match closeDelim backtick r with
        | some (a, rest) =>
            "<code>".data ++ a ++ "</code>".data ++ codePassF fuel rest
        | none => c :: codePassF fuel r
      else c :: codePassF fuel r

def codePass (l : List Char) : List Char := codePassF l.length l

/-- `replace(/"(.*?)"/g, '<strong>"$1"</strong>')`. -/
def quotePassF : Nat → List Char → List Char
  | 0, l => l
  | _ + 1, [] => []
  | fuel + 1, c :: r =>
      if c = quoteChar then
        match closeDelim quoteChar r with
        | some (a, rest) =>
            "<strong>".data ++ [quoteChar] ++ a ++ [quoteChar] ++
              "</strong>".data ++ quotePassF fuel rest
        | none => c :: quotePassF fuel r
      else c :: quotePassF fuel r

def quotePass (l : List Char) : List Char := quotePassF l.length l

/-- `replace(/\n/g, '<br>')`. -/
def brPass : List Char → List Char
  | [] => []
  | '\n' :: r => "<br>".data ++ brPass r
  | c :: r => c :: brPass r

/-- `formatText` of the second variant (App.js lines 623-632); `!text`
returns the empty string. -/
def formatText (t : List Char) : List Char :=
  if t = [] then []
  else brPass (quotePass (codePass (emPass (boldPass t))))

/-! ## Data model and the turn pipeline -/

inductive Sender
  | user
  | ai
deriving DecidableEq, Repr

/-- A chat message (`{ text, sender, error?, id }`).  `text` is `none` when
the stored JavaScript value is `undefined`; `error` is `false` when the
field is absent (reading it yields `undefined`, which is falsy). -/
structure Message where
  text : Option (List Char)
  sender : Sender
  error : Bool
  id : Nat
deriving DecidableEq, Repr

/-- One `{ text }` part, in requests and responses (named `MsgPart` because Mathlib already has `Part`). -/
structure MsgPart where
  text : Option (List Char)
deriving DecidableEq, Repr

/-- One `{ role, parts }` entry of the request transcript. -/
structure TranscriptEntry where
  role : List Char
  parts : List MsgPart
deriving DecidableEq, Repr

/-- The network call issued by a turn: the key embedded in the URL and the
`contents` payload. -/
structure Request where
  apiKey : List Char
  contents : List TranscriptEntry
deriving DecidableEq, Repr

structure Content where
  parts : Option (List MsgPart)
deriving DecidableEq, Repr

structure Candidate where
  content : Option Content
deriving DecidableEq, Repr

/-- A successfully parsed response body; absent fields are `none`. -/
structure GeminiResponse where
  candidates : Option (List Candidate)
deriving DecidableEq, Repr

/-- The environment's answer to the `fetch`: a rejected promise or a thrown
parse error (with the exception's message), a non-ok HTTP status (with
`errorData.error.message` when present and truthy), or a parsed ok body. -/
inductive FetchOutcome
  | networkError (message : List Char)
  | httpError (status : Nat) (errMessage : Option (List Char))
  | ok (body : GeminiResponse)
deriving DecidableEq, Repr

/-- The component state the pipeline reads and writes. -/
structure AppState where
  messages : List Message
  input : List Char
  isTyping : Bool
  apiKey : List Char
  voiceOutput : Bool
deriving DecidableEq, Repr

/-- `msg => ({ role: msg.sender === 'user' ? 'user' : 'model',
parts: [{ text: msg.text }] })`. -/
def toChatEntry (m : Message) : TranscriptEntry :=
  ⟨(if m.sender = Sender.user then "user" else "model").data, [⟨m.text⟩]⟩

/-- The guard condition `result.candidates && result.candidates.length > 0 &&
result.candidates[0].content && result.candidates[0].content.parts &&
result.candidates[0].content.parts.length > 0`; when it holds, the value of
`result.candidates[0].content.parts[0].text` (which may itself be absent). -/
def extractFirstText (r : GeminiResponse) : Option (Option (List Char)) :=
  match r.candidates with
  | some (c :: _) =>
      match c.content with
      | some ct =>
          match ct.parts with
          | some (p :: _) => some p.text
          | _ => none
      | none => none
  | _ => none

/-- The fallback apology used when the response has no generated content
(identical in both variants). -/
def fallbackText : List Char :=
  "I'm sorry, I couldn't generate a response. Please try again.".data

/-- The message of the `TypeError` raised by `undefined.trim()` in the first
variant when `parts[0].text` is absent and voice output calls
`speak(aiResponseText.trim())`.  The exact wording is engine-specific and
irrelevant to every claim; this is the V8 text. -/
def undefinedTrimMessage : List Char :=
  "Cannot read properties of undefined (reading 'trim')".data

/-- First variant: the error text thrown on a non-ok response,
`errorData.error.message || 'API call failed with status: ' + status`. -/
def errorDetail1 (status : Nat) (errMessage : Option (List Char)) : List Char :=
  match errMessage with
  | some m => m
  | none => "API call failed with status: ".data ++ (toString status).data

/-- The raw detail string the first variant's `catch` receives for a failed
outcome. -/
def failureDetail : FetchOutcome → List Char
  | FetchOutcome.networkError m => m
  | FetchOutcome.httpError st em => errorDetail1 st em
  | FetchOutcome.ok _ => []

/-- Whether the outcome makes the `try` block throw before a reply is
produced (network failure or non-ok status). -/
def isFailureOutcome : FetchOutcome → Bool
  | FetchOutcome.networkError _ => true
  | FetchOutcome.httpError _ _ => true
  | FetchOutcome.ok _ => false

/-- Whether an ok response passes the content guard but carries no `text`
field in its first part (so `aiResponseText` is `undefined`). -/
def undefTextTurn : FetchOutcome → Bool
  | FetchOutcome.ok b => decide (extractFirstText b = some none)
  | _ => false

/-- `handleSendMessage` of the first variant (App.js lines 105-160) as a
step function.  `t0`, `t1`, `t2` are the `Date.now()` readings used for the
user message id, the reply message id and the catch-block message id.  The
returned `Option Request` is the network call issued, if any.

Control flow embedded: the entry guard returns unchanged; otherwise the
user message is appended, the transcript built and the call issued; a
failure outcome reaches `catch`, which appends an assistant message whose
text interpolates `error.message`; an ok body either yields the first
part's text, or the fallback apology when the content guard fails.  When
the content guard passes but `text` is absent, the reply (with `undefined`
text) is first appended, then `speak(aiResponseText.trim())` throws a
`TypeError` if voice output is on, and `catch` appends a second, error
message.  `finally` clears `isTyping` on every path. -/
def handleSendMessageV1 (s : AppState) (t0 t1 t2 : Nat) (o : FetchOutcome) :
    AppState × Option Request :=
  if trimChars s.input = [] ∨ s.isTyping = true then (s, none)
  else
    let userMessage : Message := ⟨some s.input, Sender.user, false, t0⟩
    let newMessages := s.messages ++ [userMessage]
    let chatHistory := newMessages.map toChatEntry
    let req : Request := ⟨s.apiKey, chatHistory⟩
    let base : AppState := { s with input := [], isTyping := false }
    match o with
    | FetchOutcome.networkError m =>
        ({ base with messages := newMessages ++
            [⟨some ("Sorry, something went wrong: ".data ++ m),
              Sender.ai, true, t2 + 1⟩] }, some req)
    | FetchOutcome.httpError st em =>
        ({ base with messages := newMessages ++
            [⟨some ("Sorry, something went wrong: ".data ++ errorDetail1 st em),
              Sender.ai, true, t2 + 1⟩] }, some req)
    | FetchOutcome.ok body =>
        match extractFirstText body with
        | none =>
            ({ base with messages := newMessages ++
                [⟨some fallbackText, Sender.ai, false, t1 + 1⟩] }, some req)
        | some none =>
            if s.voiceOutput then
              ({ base with messages := newMessages ++
                  [⟨none, Sender.ai, false, t1 + 1⟩,
                   ⟨some ("Sorry, something went wrong: ".data ++
                      undefinedTrimMessage), Sender.ai, true, t2 + 1⟩] },
               some req)
            else
              ({ base with messages := newMessages ++
                  [⟨none, Sender.ai, false, t1 + 1⟩] }, some req)
        | some (some t) =>
            ({ base with messages := newMessages ++
                [⟨some t, Sender.ai, false, t1 + 1⟩] }, some req)

/-- The fixed user-facing error text of the second variant's `catch`. -/
def fixedErrorText2 : List Char :=
  "Sorry, an error occurred. Please try again.".data

/-- `handleSendMessage` of the second variant (App.js lines 516-580).
Differences from the first variant: the `catch` text is fixed (every
failure, including the `TypeError` thrown by `.replace` on an `undefined`
reply, appends the same string), and a present reply text is passed through
`cleanupResponseText` before being stored. -/
def handleSendMessageV2 (s : AppState) (t0 t1 t2 : Nat) (o : FetchOutcome) :
    AppState × Option Request :=
  if trimChars s.input = [] ∨ s.isTyping = true then (s, none)
  else
    let userMessage : Message := ⟨some s.input, Sender.user, false, t0⟩
    let newMessages := s.messages ++ [userMessage]
    let chatHistory := newMessages.map toChatEntry
    let req : Request := ⟨s.apiKey, chatHistory⟩
    let base : AppState := { s with input := [], isTyping := false }
    match o with
    | FetchOutcome.networkError _ =>
        ({ base with messages := newMessages ++
            [⟨some fixedErrorText2, Sender.ai, true, t2 + 1⟩] }, some req)
    | FetchOutcome.httpError _ _ =>
        ({ base with messages := newMessages ++
            [⟨some fixedErrorText2, Sender.ai, true, t2 + 1⟩] }, some req)
    | FetchOutcome.ok body =>
        match extractFirstText body with
        | none =>
            ({ base with messages := newMessages ++
                [⟨some fallbackText, Sender.ai, false, t1 + 1⟩] }, some req)
        | some none =>
            ({ base with messages := newMessages ++
                [⟨some fixedErrorText2, Sender.ai, true, t2 + 1⟩] }, some req)
        | some (some t) =>
            ({ base with messages := newMessages ++
                [⟨some (cleanupResponseText t), Sender.ai, false, t1 + 1⟩] },
             some req)

/-! ## Predicates used in claim statements -/

/-- Whether the first two characters are both newlines. -/
def startsNN : List Char → Bool
  | [] => false
  | [_] => false
  | a :: b :: _ => decide (a = '\n') && decide (b = '\n')

/-- Whether the list contains three consecutive newline characters. -/
def hasTriple : List Char → Bool
  | [] => false
  | c :: r => (decide (c = '\n') && startsNN r) || hasTriple r

/-- No two adjacent whitespace characters. -/
def collapsedWs : List Char → Bool
  | [] => true
  | [_] => true
  | c :: d :: r => !(isJsSpace c && isJsSpace d) && collapsedWs (d :: r)

/-- No `<` is followed (anywhere later) by a `>`: the string can contain no
`<...>` tag, nor acquire one by deleting characters. -/
def tagFree (l : List Char) : Prop := ¬ List.Sublist ['<', '>'] l

/-! ## Concrete fixtures for witnesses and counterexamples -/

/-- A fresh session about to send `"Hello"`. -/
def s0 : AppState := ⟨[], "Hello".data, false, "k".data, true⟩

/-- A session with a request already in flight. -/
def sBusy : AppState := ⟨[], "B".data, true, "k".data, true⟩

/-- A fresh session with no stored credential. -/
def sNoKey : AppState := ⟨[], "Hello".data, false, [], true⟩

/-- A response carrying the reply `"Hi there"`. -/
def goodBody : GeminiResponse := ⟨some [⟨some ⟨some [⟨some "Hi there".data⟩]⟩⟩]⟩

/-- A response whose first part exists but has no `text` field. -/
def undefBody : GeminiResponse := ⟨some [⟨some ⟨some [⟨none⟩]⟩⟩]⟩

/-- A response with no candidates at all. -/
def emptyBody : GeminiResponse := ⟨none⟩

/-- A response whose reply text carries markup and excess whitespace. -/
def messyBody : GeminiResponse :=
  ⟨some [⟨some ⟨some [⟨some "**Hi**\n\n\n\n there  ".data⟩]⟩⟩]⟩

/-! ## Statement abbreviations -/

/-- The user message a turn appends (`{ text: input, sender: 'user', id: Date.now() }`). -/

def userMsgOf (s : AppState) (t0 : Nat) : Message :=
  ⟨some s.input, Sender.user, false, t0⟩

/-- The state after a completed turn: the turn's messages appended, the
input box cleared, `isTyping` reset. -/
def afterTurn (s : AppState) (tail : List Message) : AppState :=
  { s with messages := s.messages ++ tail, input := [], isTyping := false }

def reqOf (s : AppState) (t0 : Nat) : Request :=
  ⟨s.apiKey, (s.messages ++ [userMsgOf s t0]).map toChatEntry⟩

theorem guard_neg {s : AppState} (h1 : trimChars s.input ≠ []) (h2 : s.isTyping = false) :
    ¬(trimChars s.input = [] ∨ s.isTyping = true) := by simp [h1, h2]

theorem hsV1_networkError (s : AppState) (t0 t1 t2 : Nat) (m : List Char)
    (hg : ¬(trimChars s.input = [] ∨ s.isTyping = true)) :
    handleSendMessageV1 s t0 t1 t2 (FetchOutcome.networkError m) =
      (afterTurn s [userMsgOf s t0,
          ⟨some ("Sorry, something went wrong: ".data ++ m), Sender.ai, true, t2 + 1⟩], some (reqOf s t0)) := by
  unfold handleSendMessageV1; rw [if_neg hg]
  simp [afterTurn, userMsgOf, reqOf]

theorem hsV1_httpError (s : AppState) (t0 t1 t2 : Nat) (st : Nat) (em : Option (List Char))
    (hg : ¬(trimChars s.input = [] ∨ s.isTyping = true)) :
    handleSendMessageV1 s t0 t1 t2 (FetchOutcome.httpError st em) =
      (afterTurn s [userMsgOf s t0,
          ⟨some ("Sorry, something went wrong: ".data ++ errorDetail1 st em), Sender.ai, true, t2 + 1⟩], some (reqOf s t0)) := by
  unfold handleSendMessageV1; rw [if_neg hg]
  simp [afterTurn, userMsgOf, reqOf]

theorem hsV1_fallback (s : AppState) (t0 t1 t2 : Nat) (body : GeminiResponse)
    (hg : ¬(trimChars s.input = [] ∨ s.isTyping = true))
    (hb : extractFirstText body = none) :
    handleSendMessageV1 s t0 t1 t2 (FetchOutcome.ok body) =
      (afterTurn s [userMsgOf s t0,
          ⟨some fallbackText, Sender.ai, false, t1 + 1⟩], some (reqOf s t0)) := by
  unfold handleSendMessageV1; rw [if_neg hg]
  simp [hb, afterTurn, userMsgOf, reqOf]

theorem hsV1_text (s : AppState) (t0 t1 t2 : Nat) (body : GeminiResponse) (t : List Char)
    (hg : ¬(trimChars s.input = [] ∨ s.isTyping = true))
    (hb : extractFirstText body = some (some t)) :
    handleSendMessageV1 s t0 t1 t2 (FetchOutcome.ok body) =
      (afterTurn s [userMsgOf s t0,
          ⟨some t, Sender.ai, false, t1 + 1⟩], some (reqOf s t0)) := by
  unfold handleSendMessageV1; rw [if_neg hg]
  simp [hb, afterTurn, userMsgOf, reqOf]

theorem hsV1_undefVoice (s : AppState) (t0 t1 t2 : Nat) (body : GeminiResponse)
    (hg : ¬(trimChars s.input = [] ∨ s.isTyping = true))
    (hb : extractFirstText body = some none) (hv : s.voiceOutput = true) :
    handleSendMessageV1 s t0 t1 t2 (FetchOutcome.ok body) =
      (afterTurn s [userMsgOf s t0,
          ⟨none, Sender.ai, false, t1 + 1⟩,
          ⟨some ("Sorry, something went wrong: ".data ++ undefinedTrimMessage),
            Sender.ai, true, t2 + 1⟩], some (reqOf s t0)) := by
  unfold handleSendMessageV1; rw [if_neg hg]
  simp [hb, hv, afterTurn, userMsgOf, reqOf]

theorem hsV1_undefQuiet (s : AppState) (t0 t1 t2 : Nat) (body : GeminiResponse)
    (hg : ¬(trimChars s.input = [] ∨ s.isTyping = true))
    (hb : extractFirstText body = some none) (hv : s.voiceOutput = false) :
    handleSendMessageV1 s t0 t1 t2 (FetchOutcome.ok body) =
      (afterTurn s [userMsgOf s t0,
          ⟨none, Sender.ai, false, t1 + 1⟩], some (reqOf s t0)) := by
  unfold handleSendMessageV1; rw [if_neg hg]
  simp [hb, hv, afterTurn, userMsgOf, reqOf]

theorem hsV2_networkError (s : AppState) (t0 t1 t2 : Nat) (m : List Char)
    (hg : ¬(trimChars s.input = [] ∨ s.isTyping = true)) :
    handleSendMessageV2 s t0 t1 t2 (FetchOutcome.networkError m) =
      (afterTurn s [userMsgOf s t0,
          ⟨some fixedErrorText2, Sender.ai, true, t2 + 1⟩], some (reqOf s t0)) := by
  unfold handleSendMessageV2; rw [if_neg hg]
  simp [afterTurn, userMsgOf, reqOf]

theorem hsV2_httpError (s : AppState) (t0 t1 t2 : Nat) (st : Nat) (em : Option (List Char))
    (hg : ¬(trimChars s.input = [] ∨ s.isTyping = true)) :
    handleSendMessageV2 s t0 t1 t2 (FetchOutcome.httpError st em) =
      (afterTurn s [userMsgOf s t0,
          ⟨some fixedErrorText2, Sender.ai, true, t2 + 1⟩], some (reqOf s t0)) := by
  unfold handleSendMessageV2; rw [if_neg hg]
  simp [afterTurn, userMsgOf, reqOf]

theorem hsV2_fallback (s : AppState) (t0 t1 t2 : Nat) (body : GeminiResponse)
    (hg : ¬(trimChars s.input = [] ∨ s.isTyping = true))
    (hb : extractFirstText body = none) :
    handleSendMessageV2 s t0 t1 t2 (FetchOutcome.ok body) =
      (afterTurn s [userMsgOf s t0,
          ⟨some fallbackText, Sender.ai, false, t1 + 1⟩], some (reqOf s t0)) := by
  unfold handleSendMessageV2; rw [if_neg hg]
  simp [hb, afterTurn, userMsgOf, reqOf]

theorem hsV2_undef (s : AppState) (t0 t1 t2 : Nat) (body : GeminiResponse)
    (hg : ¬(trimChars s.input = [] ∨ s.isTyping = true))
    (hb : extractFirstText body = some none) :
    handleSendMessageV2 s t0 t1 t2 (FetchOutcome.ok body) =
      (afterTurn s [userMsgOf s t0,
          ⟨some fixedErrorText2, Sender.ai, true, t2 + 1⟩], some (reqOf s t0)) := by
  unfold handleSendMessageV2; rw [if_neg hg]
  simp [hb, afterTurn, userMsgOf, reqOf]

theorem hsV2_text (s : AppState) (t0 t1 t2 : Nat) (body : GeminiResponse) (t : List Char)
    (hg : ¬(trimChars s.input = [] ∨ s.isTyping = true))
    (hb : extractFirstText body = some (some t)) :
    handleSendMessageV2 s t0 t1 t2 (FetchOutcome.ok body) =
      (afterTurn s [userMsgOf s t0,
          ⟨some (cleanupResponseText t), Sender.ai, false, t1 + 1⟩], some (reqOf s t0)) := by
  unfold handleSendMessageV2; rw [if_neg hg]
  simp [hb, afterTurn, userMsgOf, reqOf]

/-! ## Shared consequences of the branch equations -/

theorem sndV1 (s : AppState) (t0 t1 t2 : Nat) (o : FetchOutcome)
    (hg : ¬(trimChars s.input = [] ∨ s.isTyping = true)) :
    (handleSendMessageV1 s t0 t1 t2 o).2 = some (reqOf s t0) := by
  cases o with
  | networkError m => rw [hsV1_networkError s t0 t1 t2 m hg]
  | httpError st em => rw [hsV1_httpError s t0 t1 t2 st em hg]
  | ok body =>
      cases hb : extractFirstText body with
      | none => rw [hsV1_fallback s t0 t1 t2 body hg hb]
      | some t =>
          cases t with
          | none =>
              cases hv : s.voiceOutput with
              | true => rw [hsV1_undefVoice s t0 t1 t2 body hg hb hv]
              | false => rw [hsV1_undefQuiet s t0 t1 t2 body hg hb hv]
          | some t2' => rw [hsV1_text s t0 t1 t2 body t2' hg hb]

theorem sndV2 (s : AppState) (t0 t1 t2 : Nat) (o : FetchOutcome)
    (hg : ¬(trimChars s.input = [] ∨ s.isTyping = true)) :
    (handleSendMessageV2 s t0 t1 t2 o).2 = some (reqOf s t0) := by
  cases o with
  | networkError m => rw [hsV2_networkError s t0 t1 t2 m hg]
  | httpError st em => rw [hsV2_httpError s t0 t1 t2 st em hg]
  | ok body =>
      cases hb : extractFirstText body with
      | none => rw [hsV2_fallback s t0 t1 t2 body hg hb]
      | some t =>
          cases t with
          | none => rw [hsV2_undef s t0 t1 t2 body hg hb]
          | some t2' => rw [hsV2_text s t0 t1 t2 body t2' hg hb]

theorem idleV1 (s : AppState) (t0 t1 t2 : Nat) (o : FetchOutcome)
    (hg : ¬(trimChars s.input = [] ∨ s.isTyping = true)) :
    (handleSendMessageV1 s t0 t1 t2 o).1.isTyping = false := by
  cases o with
  | networkError m => rw [hsV1_networkError s t0 t1 t2 m hg]; rfl
  | httpError st em => rw [hsV1_httpError s t0 t1 t2 st em hg]; rfl
  | ok body =>
      cases hb : extractFirstText body with
      | none => rw [hsV1_fallback s t0 t1 t2 body hg hb]; rfl
      | some t =>
          cases t with
          | none =>
              cases hv : s.voiceOutput with
              | true => rw [hsV1_undefVoice s t0 t1 t2 body hg hb hv]; rfl
              | false => rw [hsV1_undefQuiet s t0 t1 t2 body hg hb hv]; rfl
          | some t2' => rw [hsV1_text s t0 t1 t2 body t2' hg hb]; rfl

theorem idleV2 (s : AppState) (t0 t1 t2 : Nat) (o : FetchOutcome)
    (hg : ¬(trimChars s.input = [] ∨ s.isTyping = true)) :
    (handleSendMessageV2 s t0 t1 t2 o).1.isTyping = false := by
  cases o with
  | networkError m => rw [hsV2_networkError s t0 t1 t2 m hg]; rfl
  | httpError st em => rw [hsV2_httpError s t0 t1 t2 st em hg]; rfl
  | ok body =>
      cases hb : extractFirstText body with
      | none => rw [hsV2_fallback s t0 t1 t2 body hg hb]; rfl
      | some t =>
          cases t with
          | none => rw [hsV2_undef s t0 t1 t2 body hg hb]; rfl
          | some t2' => rw [hsV2_text s t0 t1 t2 body t2' hg hb]; rfl

/-! ## Claims -/

/-- C2: a call to `handleSendMessage` with empty or whitespace-only raw
input, or made while a request is in flight (`isTyping` true), returns
immediately: the state (history, pending flag) is unchanged and no network
call is issued; an in-flight second submission is dropped, not queued. -/
theorem C2_entry_guard_noop :
    ∀ (s : AppState) (t0 t1 t2 : Nat) (o : FetchOutcome),
      trimChars s.input = [] ∨ s.isTyping = true →
      handleSendMessageV1 s t0 t1 t2 o = (s, none) ∧
      handleSendMessageV2 s t0 t1 t2 o = (s, none) := by
  intro s t0 t1 t2 o h
  constructor
  · unfold handleSendMessageV1; rw [if_pos h]
  · unfold handleSendMessageV2; rw [if_pos h]

/-- Witness for C2: a submission made while `isTyping` is true is a no-op in
both variants. -/
theorem C2_entry_guard_noop_witness :
    handleSendMessageV1 sBusy 5 6 7 (FetchOutcome.networkError "x".data) = (sBusy, none) ∧
    handleSendMessageV2 sBusy 5 6 7 (FetchOutcome.networkError "x".data) = (sBusy, none) :=
  C2_entry_guard_noop sBusy 5 6 7 (FetchOutcome.networkError "x".data) (Or.inr (by decide))

/-- C9: every completed turn — success, failure, or an exception raised in
the turn's body — ends with `isTyping` reset to `false` (the `finally`
block), and a subsequent submission with non-blank input is accepted (a
network call is issued). -/
theorem C9_always_returns_to_idle :
    ∀ (s : AppState) (t0 t1 t2 : Nat) (o : FetchOutcome),
      trimChars s.input ≠ [] → s.isTyping = false →
      (handleSendMessageV1 s t0 t1 t2 o).1.isTyping = false ∧
      (handleSendMessageV2 s t0 t1 t2 o).1.isTyping = false ∧
      (∀ (inp : List Char) (u0 u1 u2 : Nat) (o' : FetchOutcome), trimChars inp ≠ [] →
        (handleSendMessageV1 { (handleSendMessageV1 s t0 t1 t2 o).1 with input := inp }
            u0 u1 u2 o').2.isSome = true) ∧
      (∀ (inp : List Char) (u0 u1 u2 : Nat) (o' : FetchOutcome), trimChars inp ≠ [] →
        (handleSendMessageV2 { (handleSendMessageV2 s t0 t1 t2 o).1 with input := inp }
            u0 u1 u2 o').2.isSome = true) := by
  intro s t0 t1 t2 o h1 h2
  have hg := guard_neg h1 h2
  refine ⟨idleV1 s t0 t1 t2 o hg, idleV2 s t0 t1 t2 o hg, ?_, ?_⟩
  · intro inp u0 u1 u2 o' hi
    have hg' : ¬(trimChars ({ (handleSendMessageV1 s t0 t1 t2 o).1 with input := inp } : AppState).input = []
        ∨ ({ (handleSendMessageV1 s t0 t1 t2 o).1 with input := inp } : AppState).isTyping = true) := by
      simp [hi, idleV1 s t0 t1 t2 o hg]
    rw [sndV1 _ u0 u1 u2 o' hg']
    rfl
  · intro inp u0 u1 u2 o' hi
    have hg' : ¬(trimChars ({ (handleSendMessageV2 s t0 t1 t2 o).1 with input := inp } : AppState).input = []
        ∨ ({ (handleSendMessageV2 s t0 t1 t2 o).1 with input := inp } : AppState).isTyping = true) := by
      simp [hi, idleV2 s t0 t1 t2 o hg]
    rw [sndV2 _ u0 u1 u2 o' hg']
    rfl

/-- Witness for C9 at a failing turn. -/
theorem C9_always_returns_to_idle_witness :
    (handleSendMessageV1 s0 0 0 0 (FetchOutcome.networkError "boom".data)).1.isTyping = false ∧
    (handleSendMessageV2 s0 0 0 0 (FetchOutcome.networkError "boom".data)).1.isTyping = false ∧
    (∀ (inp : List Char) (u0 u1 u2 : Nat) (o' : FetchOutcome), trimChars inp ≠ [] →
      (handleSendMessageV1 { (handleSendMessageV1 s0 0 0 0 (FetchOutcome.networkError "boom".data)).1 with input := inp }
          u0 u1 u2 o').2.isSome = true) ∧
    (∀ (inp : List Char) (u0 u1 u2 : Nat) (o' : FetchOutcome), trimChars inp ≠ [] →
      (handleSendMessageV2 { (handleSendMessageV2 s0 0 0 0 (FetchOutcome.networkError "boom".data)).1 with input := inp }
          u0 u1 u2 o').2.isSome = true) :=
  C9_always_returns_to_idle s0 0 0 0 (FetchOutcome.networkError "boom".data) (by decide) (by decide)

/-- C7: the network call of a turn carries the stored credential and the
transcript obtained by mapping the entire history including the
just-appended user message, `user` senders to role `"user"`, assistant
senders to role `"model"`, each entry carrying that message's text. -/
theorem C7_transcript_maps_full_history :
    ∀ (s : AppState) (t0 t1 t2 : Nat) (o : FetchOutcome),
      trimChars s.input ≠ [] → s.isTyping = false →
      (handleSendMessageV1 s t0 t1 t2 o).2 =
        some (⟨s.apiKey, (s.messages ++ [userMsgOf s t0]).map
          (fun m : Message =>
            (⟨(if m.sender = Sender.user then "user" else "model").data, [⟨m.text⟩]⟩ :
              TranscriptEntry))⟩ : Request) ∧
      (handleSendMessageV2 s t0 t1 t2 o).2 =
        some (⟨s.apiKey, (s.messages ++ [userMsgOf s t0]).map
          (fun m : Message =>
            (⟨(if m.sender = Sender.user then "user" else "model").data, [⟨m.text⟩]⟩ :
              TranscriptEntry))⟩ : Request) := by
  intro s t0 t1 t2 o h1 h2
  have hg := guard_neg h1 h2
  exact ⟨sndV1 s t0 t1 t2 o hg, sndV2 s t0 t1 t2 o hg⟩

/-- Witness for C7 on a session with one prior exchange. -/
theorem C7_transcript_maps_full_history_witness :
    (handleSendMessageV1 ⟨[⟨some "A".data, Sender.user, false, 0⟩,
        ⟨some "B".data, Sender.ai, false, 1⟩], "Hello".data, false, "k".data, true⟩
      7 8 9 (FetchOutcome.ok goodBody)).2 =
      some ⟨"k".data,
        [⟨"user".data, [⟨some "A".data⟩]⟩,
         ⟨"model".data, [⟨some "B".data⟩]⟩,
         ⟨"user".data, [⟨some "Hello".data⟩]⟩]⟩ := by
  have h := (C7_transcript_maps_full_history ⟨[⟨some "A".data, Sender.user, false, 0⟩,
      ⟨some "B".data, Sender.ai, false, 1⟩], "Hello".data, false, "k".data, true⟩
    7 8 9 (FetchOutcome.ok goodBody) (by decide) (by decide)).1
  rw [h]
  rfl

/-- C8: an ok response whose body fails the content guard (no
candidates/content/parts) still completes the turn: the appended assistant
message carries the fixed fallback apology and is not error-flagged. -/
theorem C8_fallback_on_missing_content :
    ∀ (s : AppState) (t0 t1 t2 : Nat) (body : GeminiResponse),
      trimChars s.input ≠ [] → s.isTyping = false → extractFirstText body = none →
      (handleSendMessageV1 s t0 t1 t2 (FetchOutcome.ok body)).1.messages
        = s.messages ++ [userMsgOf s t0, ⟨some fallbackText, Sender.ai, false, t1 + 1⟩] ∧
      (handleSendMessageV2 s t0 t1 t2 (FetchOutcome.ok body)).1.messages
        = s.messages ++ [userMsgOf s t0, ⟨some fallbackText, Sender.ai, false, t1 + 1⟩] := by
  intro s t0 t1 t2 body h1 h2 hb
  have hg := guard_neg h1 h2
  constructor
  · rw [hsV1_fallback s t0 t1 t2 body hg hb]; rfl
  · rw [hsV2_fallback s t0 t1 t2 body hg hb]; rfl

/-- Witness for C8 on a body with no candidates. -/
theorem C8_fallback_on_missing_content_witness :
    (handleSendMessageV1 s0 0 0 0 (FetchOutcome.ok emptyBody)).1.messages
      = s0.messages ++ [userMsgOf s0 0, ⟨some fallbackText, Sender.ai, false, 1⟩] ∧
    (handleSendMessageV2 s0 0 0 0 (FetchOutcome.ok emptyBody)).1.messages
      = s0.messages ++ [userMsgOf s0 0, ⟨some fallbackText, Sender.ai, false, 1⟩] :=
  C8_fallback_on_missing_content s0 0 0 0 emptyBody (by decide) (by decide) (by decide)

/-- Counterexample to C3: in the first variant a failed turn's appended
message embeds the raw error detail (here the service's error string),
so the text is neither fixed nor free of the failure detail. -/
theorem C3_counterexample_v1_leaks_detail :
    (handleSendMessageV1 s0 0 0 0
        (FetchOutcome.httpError 400 (some "API key not valid".data))).1.messages =
      [⟨some "Hello".data, Sender.user, false, 0⟩,
       ⟨some "Sorry, something went wrong: API key not valid".data, Sender.ai, true, 1⟩] := by
  decide

/-- C3 (amended): in the second variant every failed turn appends exactly
one error-flagged assistant message whose text is the fixed string
`"Sorry, an error occurred. Please try again."`, independent of the
failure; in the first variant the appended error text is the prefix
`"Sorry, something went wrong: "` followed by the raw failure detail. -/
theorem C3_amended_error_message :
    ∀ (s : AppState) (t0 t1 t2 : Nat) (o : FetchOutcome),
      trimChars s.input ≠ [] → s.isTyping = false →
      (∃ a : Message,
        (handleSendMessageV2 s t0 t1 t2 o).1.messages = s.messages ++ [userMsgOf s t0, a] ∧
        (a.error = true → a.text = some fixedErrorText2) ∧
        (isFailureOutcome o = true → a.error = true)) ∧
      (isFailureOutcome o = true →
        (handleSendMessageV1 s t0 t1 t2 o).1.messages = s.messages ++ [userMsgOf s t0,
          ⟨some ("Sorry, something went wrong: ".data ++ failureDetail o), Sender.ai, true, t2 + 1⟩]) := by
  intro s t0 t1 t2 o h1 h2
  have hg := guard_neg h1 h2
  constructor
  · cases o with
    | networkError m =>
        rw [hsV2_networkError s t0 t1 t2 m hg]
        exact ⟨(⟨some fixedErrorText2, Sender.ai, true, t2 + 1⟩ : Message), by simp [afterTurn], fun _ => rfl, fun _ => rfl⟩
    | httpError st em =>
        rw [hsV2_httpError s t0 t1 t2 st em hg]
        exact ⟨(⟨some fixedErrorText2, Sender.ai, true, t2 + 1⟩ : Message), by simp [afterTurn], fun _ => rfl, fun _ => rfl⟩
    | ok body =>
        cases hb : extractFirstText body with
        | none =>
            rw [hsV2_fallback s t0 t1 t2 body hg hb]
            exact ⟨(⟨some fallbackText, Sender.ai, false, t1 + 1⟩ : Message), by simp [afterTurn], fun h => Bool.noConfusion h,
              fun h => Bool.noConfusion h⟩
        | some t =>
            cases t with
            | none =>
                rw [hsV2_undef s t0 t1 t2 body hg hb]
                exact ⟨(⟨some fixedErrorText2, Sender.ai, true, t2 + 1⟩ : Message), by simp [afterTurn], fun _ => rfl, fun h => Bool.noConfusion h⟩
            | some t2' =>
                rw [hsV2_text s t0 t1 t2 body t2' hg hb]
                exact ⟨(⟨some (cleanupResponseText t2'), Sender.ai, false, t1 + 1⟩ : Message),
                  by simp [afterTurn], fun h => Bool.noConfusion h, fun h => Bool.noConfusion h⟩
  · intro hf
    cases o with
    | networkError m => rw [hsV1_networkError s t0 t1 t2 m hg]; simp [afterTurn, failureDetail]
    | httpError st em => rw [hsV1_httpError s t0 t1 t2 st em hg]; simp [afterTurn, failureDetail]
    | ok body => cases hf

/-- Witness for C3 (amended) at a non-ok HTTP status. -/
theorem C3_amended_error_message_witness :
    ((∃ a : Message,
        (handleSendMessageV2 s0 2 3 4 (FetchOutcome.httpError 500 none)).1.messages
          = s0.messages ++ [userMsgOf s0 2, a] ∧
        (a.error = true → a.text = some fixedErrorText2) ∧
        (isFailureOutcome (FetchOutcome.httpError 500 none) = true → a.error = true)) ∧
      (isFailureOutcome (FetchOutcome.httpError 500 none) = true →
        (handleSendMessageV1 s0 2 3 4 (FetchOutcome.httpError 500 none)).1.messages
          = s0.messages ++ [userMsgOf s0 2,
            ⟨some ("Sorry, something went wrong: ".data ++
              failureDetail (FetchOutcome.httpError 500 none)), Sender.ai, true, 5⟩])) :=
  C3_amended_error_message s0 2 3 4 (FetchOutcome.httpError 500 none) (by decide) (by decide)

/-- Counterexample to C4: with no stored credential and valid input, the
call does not short-circuit: the user message is appended and a network
call is issued carrying the empty credential. -/
theorem C4_counterexample_no_precondition :
    (handleSendMessageV1 sNoKey 0 0 0 (FetchOutcome.httpError 400 none)).2 =
      some ⟨[], [⟨"user".data, [⟨some "Hello".data⟩]⟩]⟩ ∧
    (handleSendMessageV1 sNoKey 0 0 0 (FetchOutcome.httpError 400 none)).1.messages ≠
      sNoKey.messages := by
  decide

/-- C4 (amended): neither variant checks the credential: when `submit` runs
with valid input and an absent (empty) credential, the user message is
still appended and the network call is still issued, with the empty key in
the request; absence of a credential is guarded only by the login modal in
the view layer. -/
theorem C4_amended_no_credential_check :
    ∀ (s : AppState) (t0 t1 t2 : Nat) (o : FetchOutcome),
      trimChars s.input ≠ [] → s.isTyping = false → s.apiKey = [] →
      ((handleSendMessageV1 s t0 t1 t2 o).2 = some (reqOf s t0) ∧
       (handleSendMessageV2 s t0 t1 t2 o).2 = some (reqOf s t0) ∧
       (reqOf s t0).apiKey = [] ∧
       (∃ rest, (handleSendMessageV1 s t0 t1 t2 o).1.messages
          = s.messages ++ userMsgOf s t0 :: rest ∧ rest ≠ [])) := by
  intro s t0 t1 t2 o h1 h2 hk
  have hg := guard_neg h1 h2
  refine ⟨sndV1 s t0 t1 t2 o hg, sndV2 s t0 t1 t2 o hg, by simp [reqOf, hk], ?_⟩
  cases o with
  | networkError m =>
      rw [hsV1_networkError s t0 t1 t2 m hg]
      exact ⟨[⟨some ("Sorry, something went wrong: ".data ++ m), Sender.ai, true, t2 + 1⟩],
        by simp [afterTurn], by simp⟩
  | httpError st em =>
      rw [hsV1_httpError s t0 t1 t2 st em hg]
      exact ⟨[⟨some ("Sorry, something went wrong: ".data ++ errorDetail1 st em),
        Sender.ai, true, t2 + 1⟩], by simp [afterTurn], by simp⟩
  | ok body =>
      cases hb : extractFirstText body with
      | none =>
          rw [hsV1_fallback s t0 t1 t2 body hg hb]
          exact ⟨[⟨some fallbackText, Sender.ai, false, t1 + 1⟩], by simp [afterTurn], by simp⟩
      | some t =>
          cases t with
          | none =>
              cases hv : s.voiceOutput with
              | true =>
                  rw [hsV1_undefVoice s t0 t1 t2 body hg hb hv]
                  exact ⟨[⟨none, Sender.ai, false, t1 + 1⟩,
                    ⟨some ("Sorry, something went wrong: ".data ++ undefinedTrimMessage),
                      Sender.ai, true, t2 + 1⟩], by simp [afterTurn], by simp⟩
              | false =>
                  rw [hsV1_undefQuiet s t0 t1 t2 body hg hb hv]
                  exact ⟨[⟨none, Sender.ai, false, t1 + 1⟩], by simp [afterTurn], by simp⟩
          | some t2' =>
              rw [hsV1_text s t0 t1 t2 body t2' hg hb]
              exact ⟨[⟨some t2', Sender.ai, false, t1 + 1⟩], by simp [afterTurn], by simp⟩

/-- Witness for C4 (amended). -/
theorem C4_amended_no_credential_check_witness :
    ((handleSendMessageV1 sNoKey 0 0 0 (FetchOutcome.ok goodBody)).2 = some (reqOf sNoKey 0) ∧
     (handleSendMessageV2 sNoKey 0 0 0 (FetchOutcome.ok goodBody)).2 = some (reqOf sNoKey 0) ∧
     (reqOf sNoKey 0).apiKey = [] ∧
     (∃ rest, (handleSendMessageV1 sNoKey 0 0 0 (FetchOutcome.ok goodBody)).1.messages
        = sNoKey.messages ++ userMsgOf sNoKey 0 :: rest ∧ rest ≠ [])) :=
  C4_amended_no_credential_check sNoKey 0 0 0 (FetchOutcome.ok goodBody)
    (by decide) (by decide) (by decide)

/-- Counterexample to C1: in the first variant, with voice output enabled,
an ok response whose first part has no `text` field makes the turn append
three messages — the user message, an assistant message with `undefined`
text, and (after `speak(undefined.trim())` throws) an error-flagged
assistant message.  The history grows by 3, not 2. -/
theorem C1_counterexample_three_messages :
    (handleSendMessageV1 s0 0 0 0 (FetchOutcome.ok undefBody)).1.messages =
      [⟨some "Hello".data, Sender.user, false, 0⟩,
       ⟨none, Sender.ai, false, 1⟩,
       ⟨some ("Sorry, something went wrong: ".data ++ undefinedTrimMessage),
         Sender.ai, true, 1⟩] ∧
    (handleSendMessageV1 s0 0 0 0 (FetchOutcome.ok undefBody)).1.messages.length =
      s0.messages.length + 3 := by
  decide

/-- C1 (amended): a completed turn on non-blank input first appends exactly
one user message carrying the raw input verbatim, then assistant
message(s): in the second variant always exactly one (two messages in
total), and likewise in the first variant except when voice output is
enabled and the ok response's first part lacks a `text` field, in which
case the first variant appends two assistant messages (an undefined-text
reply and an error-flagged message), three in total. -/
theorem C1_amended_turn_appends :
    ∀ (s : AppState) (t0 t1 t2 : Nat) (o : FetchOutcome),
      trimChars s.input ≠ [] → s.isTyping = false →
      (∃ a : Message,
        (handleSendMessageV2 s t0 t1 t2 o).1.messages
          = s.messages ++ [userMsgOf s t0, a] ∧ a.sender = Sender.ai) ∧
      (if s.voiceOutput = true ∧ undefTextTurn o = true then
        ∃ a b : Message,
          (handleSendMessageV1 s t0 t1 t2 o).1.messages
            = s.messages ++ [userMsgOf s t0, a, b] ∧
          a.sender = Sender.ai ∧ b.sender = Sender.ai ∧ b.error = true
       else
        ∃ a : Message,
          (handleSendMessageV1 s t0 t1 t2 o).1.messages
            = s.messages ++ [userMsgOf s t0, a] ∧ a.sender = Sender.ai) := by
  intro s t0 t1 t2 o h1 h2
  have hg := guard_neg h1 h2
  constructor
  · cases o with
    | networkError m =>
        rw [hsV2_networkError s t0 t1 t2 m hg]
        exact ⟨(⟨some fixedErrorText2, Sender.ai, true, t2 + 1⟩ : Message),
          by simp [afterTurn], rfl⟩
    | httpError st em =>
        rw [hsV2_httpError s t0 t1 t2 st em hg]
        exact ⟨(⟨some fixedErrorText2, Sender.ai, true, t2 + 1⟩ : Message),
          by simp [afterTurn], rfl⟩
    | ok body =>
        cases hb : extractFirstText body with
        | none =>
            rw [hsV2_fallback s t0 t1 t2 body hg hb]
            exact ⟨(⟨some fallbackText, Sender.ai, false, t1 + 1⟩ : Message),
              by simp [afterTurn], rfl⟩
        | some t =>
            cases t with
            | none =>
                rw [hsV2_undef s t0 t1 t2 body hg hb]
                exact ⟨(⟨some fixedErrorText2, Sender.ai, true, t2 + 1⟩ : Message),
                  by simp [afterTurn], rfl⟩
            | some t2' =>
                rw [hsV2_text s t0 t1 t2 body t2' hg hb]
                exact ⟨(⟨some (cleanupResponseText t2'), Sender.ai, false, t1 + 1⟩ : Message),
                  by simp [afterTurn], rfl⟩
  · by_cases hc : s.voiceOutput = true ∧ undefTextTurn o = true
    · rw [if_pos hc]
      obtain ⟨hv, hu⟩ := hc
      cases o with
      | networkError m => exact absurd hu (by simp [undefTextTurn])
      | httpError st em => exact absurd hu (by simp [undefTextTurn])
      | ok body =>
          have hb : extractFirstText body = some none := by
            have := hu
            unfold undefTextTurn at this
            exact of_decide_eq_true this
          rw [hsV1_undefVoice s t0 t1 t2 body hg hb hv]
          exact ⟨(⟨none, Sender.ai, false, t1 + 1⟩ : Message),
            (⟨some ("Sorry, something went wrong: ".data ++ undefinedTrimMessage),
              Sender.ai, true, t2 + 1⟩ : Message),
            by simp [afterTurn], rfl, rfl, rfl⟩
    · rw [if_neg hc]
      cases o with
      | networkError m =>
          rw [hsV1_networkError s t0 t1 t2 m hg]
          exact ⟨(⟨some ("Sorry, something went wrong: ".data ++ m), Sender.ai, true, t2 + 1⟩ :
            Message), by simp [afterTurn], rfl⟩
      | httpError st em =>
          rw [hsV1_httpError s t0 t1 t2 st em hg]
          exact ⟨(⟨some ("Sorry, something went wrong: ".data ++ errorDetail1 st em),
            Sender.ai, true, t2 + 1⟩ : Message), by simp [afterTurn], rfl⟩
      | ok body =>
          cases hb : extractFirstText body with
          | none =>
              rw [hsV1_fallback s t0 t1 t2 body hg hb]
              exact ⟨(⟨some fallbackText, Sender.ai, false, t1 + 1⟩ : Message),
                by simp [afterTurn], rfl⟩
          | some t =>
              cases t with
              | none =>
                  have hv : s.voiceOutput = false := by
                    cases hvv : s.voiceOutput with
                    | false => rfl
                    | true =>
                        exact absurd ⟨hvv, by simp [undefTextTurn, hb]⟩ hc
                  rw [hsV1_undefQuiet s t0 t1 t2 body hg hb hv]
                  exact ⟨(⟨none, Sender.ai, false, t1 + 1⟩ : Message),
                    by simp [afterTurn], rfl⟩
              | some t2' =>
                  rw [hsV1_text s t0 t1 t2 body t2' hg hb]
                  exact ⟨(⟨some t2', Sender.ai, false, t1 + 1⟩ : Message),
                    by simp [afterTurn], rfl⟩

/-- Witness for C1 (amended) on a successful exchange. -/
theorem C1_amended_turn_appends_witness :
    (∃ a : Message,
      (handleSendMessageV2 s0 0 0 0 (FetchOutcome.ok goodBody)).1.messages
        = s0.messages ++ [userMsgOf s0 0, a] ∧ a.sender = Sender.ai) ∧
    (∃ a : Message,
      (handleSendMessageV1 s0 0 0 0 (FetchOutcome.ok goodBody)).1.messages
        = s0.messages ++ [userMsgOf s0 0, a] ∧ a.sender = Sender.ai) := by
  have h := C1_amended_turn_appends s0 0 0 0 (FetchOutcome.ok goodBody) (by decide) (by decide)
  refine ⟨h.1, ?_⟩
  have h2 := h.2
  rw [if_neg (by decide)] at h2
  exact h2

/-- C5 (code bug): `formatText` passes input-controlled markup through
verbatim — on an input that is a literal `<script>` element (containing
none of the sequences the transform rewrites), the output is the unchanged
input, which `MessageBubble` then injects via `dangerouslySetInnerHTML`;
the tag is interpreted structurally instead of being rendered as literal
text, and it is not one of the tags the transform defines. -/
theorem C5_formatText_passes_markup_through :
    formatText "<script>alert(1)</script>".data = "<script>alert(1)</script>".data := by
  decide

/-! ## Clean-up invariants (for C10) -/

/-- What a marker scan state would emit at end of input. -/
def markFlush : MarkState → List Char
  | MarkState.anchored buf => buf.reverse
  | _ => []

theorem stripMarkAux_sublist (marks : List Char) :
    ∀ (l : List Char) (st : MarkState),
      List.Sublist (stripMarkAux marks st l) (markFlush st ++ l) := by
  intro l
  induction l with
  | nil =>
      intro st
      cases st with
      | anchored buf => simp [stripMarkAux, markFlush]
      | afterMark nl => simp [stripMarkAux, markFlush]
      | plain => simp [stripMarkAux, markFlush]
  | cons c r ih =>
      intro st
      cases st with
      | anchored buf =>
          by_cases hws : isJsSpace c = true
          · have h := ih (MarkState.anchored (c :: buf))
            simp only [stripMarkAux, hws, if_true, markFlush] at h ⊢
            simpa [List.append_assoc] using h
          · by_cases hm : c ∈ marks
            · have h := ih (MarkState.afterMark false)
              simp only [stripMarkAux, hws, if_false, hm, if_true, markFlush] at h ⊢
              simp only [List.nil_append] at h
              exact h.trans ((List.sublist_cons_self c r).trans
                (List.sublist_append_right _ _))
            · have h := ih MarkState.plain
              simp only [stripMarkAux, hws, hm, if_false, markFlush] at h ⊢
              simp only [List.nil_append] at h
              exact (List.Sublist.append_left (h.cons₂ c) buf.reverse)
      | afterMark nl =>
          show List.Sublist (stripMarkAux marks (MarkState.afterMark nl) (c :: r)) (c :: r)
          simp only [stripMarkAux]
          by_cases hws : isJsSpace c = true
          · rw [if_pos hws]
            have h := ih (MarkState.afterMark (c = '\n'))
            simp only [markFlush, List.nil_append] at h
            exact h.trans (List.sublist_cons_self c r)
          · rw [if_neg hws]
            by_cases hm : (nl && decide (c ∈ marks)) = true
            · rw [if_pos hm]
              have h := ih (MarkState.afterMark false)
              simp only [markFlush, List.nil_append] at h
              exact h.trans (List.sublist_cons_self c r)
            · rw [if_neg hm]
              have h := ih MarkState.plain
              simp only [markFlush, List.nil_append] at h
              exact h.cons₂ c
      | plain =>
          have h := ih (if c = '\n' then MarkState.anchored [] else MarkState.plain)
          simp only [stripMarkAux, markFlush] at h ⊢
          by_cases hn : c = '\n'
          · simp only [hn, if_true] at h ⊢
            simp only [markFlush, List.reverse_nil, List.nil_append] at h
            exact h.cons₂ _
          · simp only [hn, if_false] at h ⊢
            simp only [markFlush, List.nil_append] at h
            exact h.cons₂ _

theorem stripMarkers_sublist (marks : List Char) (l : List Char) :
    List.Sublist (stripMarkers marks l) l := by
  have h := stripMarkAux_sublist marks l (MarkState.anchored [])
  simpa [stripMarkers, markFlush] using h

/-- What a numbered-marker scan state would emit at end of input. -/
def numFlush : NumState → List Char
  | NumState.anchored buf => buf.reverse
  | NumState.digits w d => w.reverse ++ d.reverse
  | _ => []

theorem stripNumAux_sublist :
    ∀ (l : List Char) (st : NumState),
      List.Sublist (stripNumAux st l) (numFlush st ++ l) := by
  intro l
  induction l with
  | nil =>
      intro st
      cases st with
      | anchored buf => simp [stripNumAux, numFlush]
      | digits w d => simp [stripNumAux, numFlush]
      | afterDot nl => simp [stripNumAux, numFlush]
      | plain => simp [stripNumAux, numFlush]
  | cons c r ih =>
      intro st
      cases st with
      | anchored buf =>
          show List.Sublist (stripNumAux (NumState.anchored buf) (c :: r))
            (buf.reverse ++ c :: r)
          simp only [stripNumAux]
          by_cases hws : isJsSpace c = true
          · rw [if_pos hws]
            have h := ih (NumState.anchored (c :: buf))
            simp only [numFlush, List.reverse_cons] at h
            simpa [List.append_assoc] using h
          · rw [if_neg hws]
            by_cases hd : c.isDigit = true
            · rw [if_pos hd]
              have h := ih (NumState.digits buf [c])
              simp only [numFlush] at h
              refine h.trans ?_
              simp only [List.append_assoc]
              exact List.Sublist.append_left
                (by simp [List.Sublist.cons₂ c (List.nil_sublist r)]) buf.reverse
            · rw [if_neg hd]
              have h := ih NumState.plain
              simp only [numFlush, List.nil_append] at h
              exact List.Sublist.append_left (h.cons₂ c) buf.reverse
      | digits w d =>
          show List.Sublist (stripNumAux (NumState.digits w d) (c :: r))
            ((w.reverse ++ d.reverse) ++ c :: r)
          simp only [stripNumAux]
          by_cases hd : c.isDigit = true
          · rw [if_pos hd]
            have h := ih (NumState.digits w (c :: d))
            simp only [numFlush, List.reverse_cons] at h
            simpa [List.append_assoc] using h
          · rw [if_neg hd]
            by_cases hdot : c = '.'
            · rw [if_pos hdot]
              have h := ih (NumState.afterDot false)
              simp only [numFlush, List.nil_append] at h
              exact (h.trans (List.sublist_cons_self c r)).trans
                (List.sublist_append_right _ _)
            · rw [if_neg hdot]
              have h := ih (if c = '\n' then NumState.anchored [] else NumState.plain)
              have h' : List.Sublist
                  (stripNumAux (if c = '\n' then NumState.anchored [] else NumState.plain) r) r := by
                by_cases hn : c = '\n'
                · simpa [hn, numFlush] using ih (NumState.anchored [])
                · simpa [hn, numFlush] using ih NumState.plain
              simpa [List.append_assoc] using
                List.Sublist.append_left (List.Sublist.append_left (h'.cons₂ c) d.reverse) w.reverse
      | afterDot nl =>
          show List.Sublist (stripNumAux (NumState.afterDot nl) (c :: r)) (c :: r)
          simp only [stripNumAux]
          by_cases hws : isJsSpace c = true
          · rw [if_pos hws]
            have h := ih (NumState.afterDot (c = '\n'))
            simp only [numFlush, List.nil_append] at h
            exact h.trans (List.sublist_cons_self c r)
          · rw [if_neg hws]
            by_cases hm : (nl && c.isDigit) = true
            · rw [if_pos hm]
              have h := ih (NumState.digits [] [c])
              simp only [numFlush] at h
              exact h.trans (by simp [List.Sublist.cons₂ c (List.nil_sublist r)])
            · rw [if_neg hm]
              have h := ih NumState.plain
              simp only [numFlush, List.nil_append] at h
              exact h.cons₂ c
      | plain =>
          show List.Sublist (stripNumAux NumState.plain (c :: r)) (c :: r)
          simp only [stripNumAux]
          have h' : List.Sublist
              (stripNumAux (if c = '\n' then NumState.anchored [] else NumState.plain) r) r := by
            by_cases hn : c = '\n'
            · simpa [hn, numFlush] using ih (NumState.anchored [])
            · simpa [hn, numFlush] using ih NumState.plain
          exact h'.cons₂ c

theorem stripNumMarkers_sublist (l : List Char) :
    List.Sublist (stripNumMarkers l) l := by
  have h := stripNumAux_sublist l (NumState.anchored [])
  simpa [stripNumMarkers, numFlush] using h

theorem trimChars_sublist (l : List Char) : List.Sublist (trimChars l) l := by
  unfold trimChars
  have h1 : List.Sublist (l.dropWhile isJsSpace) l := by
    conv_rhs => rw [← List.takeWhile_append_dropWhile (p := isJsSpace) (l := l)]
    exact List.sublist_append_right _ _
  have h2 : List.Sublist ((l.dropWhile isJsSpace).reverse.dropWhile isJsSpace)
      (l.dropWhile isJsSpace).reverse := by
    conv_rhs => rw [← List.takeWhile_append_dropWhile (p := isJsSpace)
      (l := (l.dropWhile isJsSpace).reverse)]
    exact List.sublist_append_right _ _
  have h3 := h2.reverse
  rw [List.reverse_reverse] at h3
  exact h3.trans h1

theorem mem_limitNLAux {c : Char} :
    ∀ (l : List Char) (k : Nat), c ∈ limitNLAux k l → c = '\n' ∨ c ∈ l := by
  intro l
  induction l with
  | nil =>
      intro k h
      simp only [limitNLAux, emitNl] at h
      exact Or.inl (List.eq_of_mem_replicate h)
  | cons d r ih =>
      intro k h
      simp only [limitNLAux] at h
      by_cases hn : d = '\n'
      · rw [if_pos hn] at h
        rcases ih (k + 1) h with h' | h'
        · exact Or.inl h'
        · exact Or.inr (List.mem_cons_of_mem d h')
      · rw [if_neg hn] at h
        rcases List.mem_append.mp h with h' | h'
        · exact Or.inl (List.eq_of_mem_replicate h')
        · rcases List.mem_cons.mp h' with h'' | h''
          · exact Or.inr (h'' ▸ List.mem_cons_self d r)
          · rcases ih 0 h'' with h3 | h3
            · exact Or.inl h3
            · exact Or.inr (List.mem_cons_of_mem d h3)

theorem mem_limitNewlines {c : Char} {l : List Char} (h : c ∈ limitNewlines l) :
    c = '\n' ∨ c ∈ l := mem_limitNLAux l 0 h

/-- No asterisk survives `removeStar`. -/
theorem star_not_mem_removeStar (l : List Char) : '*' ∉ removeStar l := by
  intro h
  rcases List.mem_filter.mp h with ⟨_, hp⟩
  simp at hp

/-- No asterisk appears in a cleaned-up reply. -/
theorem cleanup_no_star (t : List Char) : '*' ∉ cleanupResponseText t := by
  intro h
  unfold cleanupResponseText at h
  have h1 := (trimChars_sublist _).subset h
  rcases mem_limitNewlines h1 with h2 | h2
  · exact absurd h2 (by decide)
  · have h3 := (stripMarkers_sublist _ _).subset h2
    have h4 := (stripNumMarkers_sublist _).subset h3
    have h5 := (stripMarkers_sublist _ _).subset h4
    exact star_not_mem_removeStar _ h5

/-! ## Newline-run bound (for C10) -/

theorem startsNN_append {x l : List Char} (h : startsNN x = true) :
    startsNN (x ++ l) = true := by
  match x with
  | [] => simp [startsNN] at h
  | [_] => simp [startsNN] at h
  | a :: b :: r => simpa [startsNN] using h

theorem hasTriple_append_right {l₂ : List Char} (l₁ : List Char)
    (h : hasTriple l₂ = true) : hasTriple (l₁ ++ l₂) = true := by
  induction l₁ with
  | nil => simpa using h
  | cons c r ih => simp [hasTriple, ih]

theorem hasTriple_append_left {l₁ : List Char} (l₂ : List Char)
    (h : hasTriple l₁ = true) : hasTriple (l₁ ++ l₂) = true := by
  induction l₁ with
  | nil => simp [hasTriple] at h
  | cons c r ih =>
      simp only [hasTriple, Bool.or_eq_true] at h
      rcases h with h | h
      · have h' := h
        simp only [Bool.and_eq_true] at h'
        obtain ⟨h1, h2⟩ := h'
        simp [List.cons_append, hasTriple, h1, startsNN_append h2]
      · simp [hasTriple, ih h]

theorem hasTriple_replicate_le {m : Nat} (hm : m ≤ 2) :
    hasTriple (List.replicate m '\n') = false := by
  interval_cases m <;> decide

theorem hasTriple_emitNl (k : Nat) : hasTriple (emitNl k) = false := by
  unfold emitNl
  exact hasTriple_replicate_le (Nat.min_le_right k 2)

theorem hasTriple_emitNl_cons {c : Char} {t : List Char} (k : Nat)
    (hc : c ≠ '\n') (ht : hasTriple t = false) :
    hasTriple (emitNl k ++ c :: t) = false := by
  unfold emitNl
  have hm : min k 2 ≤ 2 := Nat.min_le_right k 2
  have hcons : hasTriple (c :: t) = false := by
    simp [hasTriple, hc, ht]
  have hsnn : startsNN (c :: t) = false := by
    cases t with
    | nil => simp [startsNN]
    | cons d r => simp [startsNN, hc]
  interval_cases h : min k 2
  · simpa using hcons
  · simp [hasTriple, hsnn, hcons, hc, ht]
  · have hsnn2 : startsNN ('\n' :: c :: t) = false := by simp [startsNN, hc]
    simp [hasTriple, hsnn, hsnn2, hcons, hc, ht]

theorem hasTriple_limitNLAux : ∀ (l : List Char) (k : Nat),
    hasTriple (limitNLAux k l) = false := by
  intro l
  induction l with
  | nil => intro k; simpa [limitNLAux] using hasTriple_emitNl k
  | cons c r ih =>
      intro k
      simp only [limitNLAux]
      by_cases hn : c = '\n'
      · rw [if_pos hn]; exact ih (k + 1)
      · rw [if_neg hn]; exact hasTriple_emitNl_cons k hn (ih 0)

theorem hasTriple_limitNewlines (l : List Char) :
    hasTriple (limitNewlines l) = false := hasTriple_limitNLAux l 0

/-- `trim` keeps a contiguous middle part, so it cannot create a newline
run. -/
theorem hasTriple_trimChars {l : List Char} (h : hasTriple (trimChars l) = true) :
    hasTriple l = true := by
  unfold trimChars at h
  set m := l.dropWhile isJsSpace with hm
  have hsplit : (m.reverse.dropWhile isJsSpace).reverse ++
      (m.reverse.takeWhile isJsSpace).reverse = m := by
    have := List.takeWhile_append_dropWhile (p := isJsSpace) (l := m.reverse)
    calc (m.reverse.dropWhile isJsSpace).reverse ++ (m.reverse.takeWhile isJsSpace).reverse
        = (m.reverse.takeWhile isJsSpace ++ m.reverse.dropWhile isJsSpace).reverse := by
          rw [List.reverse_append]
      _ = m.reverse.reverse := by rw [this]
      _ = m := List.reverse_reverse m
  have h1 : hasTriple m = true := by
    rw [← hsplit]
    exact hasTriple_append_left _ h
  have h2 : l.takeWhile isJsSpace ++ m = l := List.takeWhile_append_dropWhile isJsSpace l
  rw [← h2]
  exact hasTriple_append_right _ h1

theorem cleanup_no_triple (t : List Char) :
    hasTriple (cleanupResponseText t) = false := by
  unfold cleanupResponseText
  by_contra h
  have h' := hasTriple_trimChars (Bool.of_not_eq_false h)
  rw [hasTriple_limitNewlines] at h'
  exact Bool.false_ne_true h'

/-! ## Trimmed-ends lemmas -/

theorem dropWhile_head_not {p : Char → Bool} :
    ∀ {l : List Char} {c : Char} {r : List Char}, l.dropWhile p = c :: r → p c = false := by
  intro l
  induction l with
  | nil => intro c r h; simp at h
  | cons d t ih =>
      intro c r h
      rw [List.dropWhile_cons] at h
      by_cases hp : p d = true
      · rw [if_pos hp] at h
        exact ih h
      · rw [if_neg hp] at h
        cases h
        exact Bool.eq_false_iff.mpr hp

theorem trimChars_rev_head_not_ws {l : List Char} {c : Char}
    (h : (trimChars l).reverse.head? = some c) : isJsSpace c = false := by
  unfold trimChars at h
  rw [List.reverse_reverse] at h
  cases hd : ((l.dropWhile isJsSpace).reverse.dropWhile isJsSpace) with
  | nil => rw [hd] at h; simp at h
  | cons d r =>
      rw [hd] at h
      simp only [List.head?_cons, Option.some.injEq] at h
      exact h ▸ dropWhile_head_not hd

theorem trimChars_head_not_ws {l : List Char} {c : Char}
    (h : (trimChars l).head? = some c) : isJsSpace c = false := by
  set m := l.dropWhile isJsSpace with hm
  have hsplit : trimChars l ++ (m.reverse.takeWhile isJsSpace).reverse = m := by
    unfold trimChars
    rw [← hm]
    calc (m.reverse.dropWhile isJsSpace).reverse ++ (m.reverse.takeWhile isJsSpace).reverse
        = (m.reverse.takeWhile isJsSpace ++ m.reverse.dropWhile isJsSpace).reverse := by
          rw [List.reverse_append]
      _ = m.reverse.reverse := by
          rw [List.takeWhile_append_dropWhile]
      _ = m := List.reverse_reverse m
  cases hy : trimChars l with
  | nil => rw [hy] at h; simp at h
  | cons d r =>
      rw [hy] at h
      simp only [List.head?_cons, Option.some.injEq] at h
      have hm2 : l.dropWhile isJsSpace = d ::
          (r ++ (m.reverse.takeWhile isJsSpace).reverse) := by
        rw [← hm]
        conv_lhs => rw [← hsplit]
        rw [hy, List.cons_append]
      have hd := dropWhile_head_not (p := isJsSpace) hm2
      exact h ▸ hd

/-- C10: in the second variant, the assistant message appended by a
successful turn (not error-flagged) has a text containing no asterisk, no
run of three or more consecutive newlines, and no leading or trailing
whitespace — guaranteed by the clean-up applied before storing; the
fallback apology satisfies it trivially. -/
theorem C10_v2_success_reply_clean :
    ∀ (s : AppState) (t0 t1 t2 : Nat) (o : FetchOutcome),
      trimChars s.input ≠ [] → s.isTyping = false →
      ∃ a : Message,
        (handleSendMessageV2 s t0 t1 t2 o).1.messages = s.messages ++ [userMsgOf s t0, a] ∧
        (a.error = false → ∃ t, a.text = some t ∧
          '*' ∉ t ∧ hasTriple t = false ∧
          (∀ c, t.head? = some c → isJsSpace c = false) ∧
          (∀ c, t.reverse.head? = some c → isJsSpace c = false)) := by
  intro s t0 t1 t2 o h1 h2
  have hg := guard_neg h1 h2
  have hfb : ∃ t, (some fallbackText : Option (List Char)) = some t ∧
      '*' ∉ t ∧ hasTriple t = false ∧
      (∀ c, t.head? = some c → isJsSpace c = false) ∧
      (∀ c, t.reverse.head? = some c → isJsSpace c = false) := by
    refine ⟨fallbackText, rfl, by decide, by decide, ?_, ?_⟩
    · intro c h
      rw [show fallbackText.head? = some 'I' from rfl] at h
      cases h
      decide
    · intro c h
      rw [show fallbackText.reverse.head? = some '.' from rfl] at h
      cases h
      decide
  cases o with
  | networkError m =>
      rw [hsV2_networkError s t0 t1 t2 m hg]
      exact ⟨(⟨some fixedErrorText2, Sender.ai, true, t2 + 1⟩ : Message),
        by simp [afterTurn], fun h => Bool.noConfusion h⟩
  | httpError st em =>
      rw [hsV2_httpError s t0 t1 t2 st em hg]
      exact ⟨(⟨some fixedErrorText2, Sender.ai, true, t2 + 1⟩ : Message),
        by simp [afterTurn], fun h => Bool.noConfusion h⟩
  | ok body =>
      cases hb : extractFirstText body with
      | none =>
          rw [hsV2_fallback s t0 t1 t2 body hg hb]
          exact ⟨(⟨some fallbackText, Sender.ai, false, t1 + 1⟩ : Message),
            by simp [afterTurn], fun _ => hfb⟩
      | some t =>
          cases t with
          | none =>
              rw [hsV2_undef s t0 t1 t2 body hg hb]
              exact ⟨(⟨some fixedErrorText2, Sender.ai, true, t2 + 1⟩ : Message),
                by simp [afterTurn], fun h => Bool.noConfusion h⟩
          | some t2' =>
              rw [hsV2_text s t0 t1 t2 body t2' hg hb]
              refine ⟨(⟨some (cleanupResponseText t2'), Sender.ai, false, t1 + 1⟩ : Message),
                by simp [afterTurn], fun _ => ⟨cleanupResponseText t2', rfl,
                  cleanup_no_star t2', cleanup_no_triple t2', ?_, ?_⟩⟩
              · intro c h
                unfold cleanupResponseText at h
                exact trimChars_head_not_ws h
              · intro c h
                unfold cleanupResponseText at h
                exact trimChars_rev_head_not_ws h

/-- Witness for C10 on a reply with markup and excess whitespace. -/
theorem C10_v2_success_reply_clean_witness :
    ∃ a : Message,
      (handleSendMessageV2 s0 0 0 0 (FetchOutcome.ok messyBody)).1.messages
        = s0.messages ++ [userMsgOf s0 0, a] ∧
      (a.error = false → ∃ t, a.text = some t ∧
        '*' ∉ t ∧ hasTriple t = false ∧
        (∀ c, t.head? = some c → isJsSpace c = false) ∧
        (∀ c, t.reverse.head? = some c → isJsSpace c = false)) :=
  C10_v2_success_reply_clean s0 0 0 0 (FetchOutcome.ok messyBody) (by decide) (by decide)

/-! ## Tag-freeness (for C6) -/

theorem tagFree_nil : tagFree [] := by
  intro h
  simp [tagFree] at h

theorem tagFree_of_sublist {y l : List Char} (hs : List.Sublist y l)
    (h : tagFree l) : tagFree y := fun hp => h (hp.trans hs)

theorem tagFree_cons_of_ne {c : Char} {r : List Char} (hc : c ≠ '<')
    (h : tagFree r) : tagFree (c :: r) := by
  intro hp
  rcases List.sublist_cons_iff.mp hp with hp' | ⟨rr, heq, hrr⟩
  · exact h hp'
  · cases heq
    exact hc rfl

theorem tagFree_lt_cons {r : List Char} (h : '>' ∉ r) : tagFree ('<' :: r) := by
  intro hp
  have hmem : '>' ∈ '<' :: r := hp.subset (by simp)
  rcases List.mem_cons.mp hmem with h' | h'
  · exact absurd h' (by decide)
  · exact h h'

theorem tagFree_tail {c : Char} {r : List Char} (h : tagFree (c :: r)) :
    tagFree r := fun hp => h (hp.cons c)

theorem gt_not_mem_of_tagFree_lt {r : List Char} (h : tagFree ('<' :: r)) :
    '>' ∉ r := by
  intro hmem
  exact h (List.Sublist.cons₂ '<' (List.singleton_sublist.mpr hmem))

/-- The scanner's output never contains a `<` later followed by a `>`:
every `<` that survives had no `>` after it. -/
theorem tagFree_removeTagsAux :
    ∀ (l : List Char) (st : Option (List Char)),
      (∀ buf, st = some buf → '>' ∉ buf) → tagFree (removeTagsAux st l) := by
  intro l
  induction l with
  | nil =>
      intro st hinv
      cases st with
      | none => exact tagFree_nil
      | some buf =>
          show tagFree ('<' :: buf.reverse)
          exact tagFree_lt_cons (by
            intro hmem
            exact hinv buf rfl (List.mem_reverse.mp hmem))
  | cons c r ih =>
      intro st hinv
      cases st with
      | none =>
          show tagFree (if c = '<' then removeTagsAux (some []) r
            else c :: removeTagsAux none r)
          by_cases hc : c = '<'
          · rw [if_pos hc]
            exact ih (some []) (by intro buf h; cases h; simp)
          · rw [if_neg hc]
            exact tagFree_cons_of_ne hc (ih none (by intro buf h; cases h))
      | some buf =>
          show tagFree (if c = '>' then removeTagsAux none r
            else removeTagsAux (some (c :: buf)) r)
          by_cases hc : c = '>'
          · rw [if_pos hc]
            exact ih none (by intro b h; cases h)
          · rw [if_neg hc]
            refine ih (some (c :: buf)) ?_
            intro b h
            cases h
            intro hmem
            rcases List.mem_cons.mp hmem with h' | h'
            · exact hc h'.symm
            · exact hinv buf rfl h'

theorem tagFree_removeTags (l : List Char) : tagFree (removeTags l) :=
  tagFree_removeTagsAux l none (by intro buf h; cases h)

theorem removeTagsAux_no_gt {r : List Char} (h : '>' ∉ r) :
    ∀ buf, removeTagsAux (some buf) r = '<' :: buf.reverse ++ r := by
  induction r with
  | nil => intro buf; simp [removeTagsAux]
  | cons c t ih =>
      intro buf
      have hc : c ≠ '>' := fun hc => h (hc ▸ List.mem_cons_self c t)
      show (if c = '>' then removeTagsAux none t
        else removeTagsAux (some (c :: buf)) t) = '<' :: buf.reverse ++ c :: t
      rw [if_neg hc, ih (fun hm => h (List.mem_cons_of_mem c hm)) (c :: buf)]
      simp

/-- A tag-free string is unchanged by the tag scanner. -/
theorem removeTags_id : ∀ {l : List Char}, tagFree l → removeTags l = l := by
  intro l
  induction l with
  | nil => intro _; rfl
  | cons c r ih =>
      intro h
      show (if c = '<' then removeTagsAux (some []) r
        else c :: removeTagsAux none r) = c :: r
      by_cases hc : c = '<'
      · rw [if_pos hc]
        subst hc
        rw [removeTagsAux_no_gt (gt_not_mem_of_tagFree_lt h) []]
        simp
      · rw [if_neg hc]
        rw [show removeTagsAux none r = removeTags r from rfl, ih (tagFree_tail h)]

/-- Tag-freeness survives any map that creates no new `<` or `>`. -/
theorem tagFree_map {f : Char → Char}
    (hlt : ∀ c, f c = '<' → c = '<') (hgt : ∀ c, f c = '>' → c = '>') :
    ∀ {l : List Char}, tagFree l → tagFree (l.map f) := by
  intro l
  induction l with
  | nil => intro _; simpa using tagFree_nil
  | cons c r ih =>
      intro h hp
      rw [List.map_cons] at hp
      rcases List.sublist_cons_iff.mp hp with hp' | ⟨rr, heq, hrr⟩
      · exact ih (tagFree_tail h) hp'
      · have hfc : f c = '<' := by
          have := congrArg (fun x => x.head?) heq
          simpa using this.symm
        have hrr' : rr = ['>'] := by
          have := congrArg (fun x => x.tail) heq
          simpa using this.symm
        subst hrr'
        have hgt' : '>' ∈ r.map f := List.singleton_sublist.mp hrr
        rcases List.mem_map.mp hgt' with ⟨b, hb, hfb⟩
        have hb' : b = '>' := hgt b hfb
        have hc' : c = '<' := hlt c hfc
        subst hb' hc'
        exact h (List.Sublist.cons₂ '<' (List.singleton_sublist.mpr hb))

/-! ## Star/backtick/newline pass lemmas (for C6) -/

/-- Reduction of the double-star scanner at a non-matching head. -/
theorem removeDoubleStar_cons_ne {c : Char} {r : List Char}
    (h : ∀ r', c = '*' → r = '*' :: r' → False) :
    removeDoubleStar (c :: r) = c :: removeDoubleStar r := by
  rw [removeDoubleStar.eq_def]
  split
  · rename_i heq
    exact absurd heq (by simp)
  · rename_i r1 heq
    rw [List.cons.injEq] at heq
    exact (h r1 heq.1 heq.2).elim
  · rename_i c1 r1 hnot heq
    rw [List.cons.injEq] at heq
    rcases heq with ⟨h1, h2⟩
    subst h1 h2
    rfl

theorem removeDoubleStar_sublist : ∀ l : List Char, List.Sublist (removeDoubleStar l) l := by
  intro l
  induction l using removeDoubleStar.induct with
  | case1 => simp [removeDoubleStar]
  | case2 r ih =>
      show List.Sublist (removeDoubleStar ('*' :: '*' :: r)) ('*' :: '*' :: r)
      rw [show removeDoubleStar ('*' :: '*' :: r) = removeDoubleStar r from rfl]
      exact (ih.trans (List.sublist_cons_self '*' r)).trans
        (List.sublist_cons_self '*' ('*' :: r))
  | case3 c r hne ih =>
      rw [removeDoubleStar_cons_ne hne]
      exact ih.cons₂ c

theorem removeDoubleStar_id : ∀ {l : List Char}, '*' ∉ l → removeDoubleStar l = l := by
  intro l
  induction l using removeDoubleStar.induct with
  | case1 => intro _; rfl
  | case2 r ih =>
      intro h
      exact absurd (List.mem_cons_self '*' ('*' :: r)) h
  | case3 c r hne ih =>
      intro h
      rw [removeDoubleStar_cons_ne hne, ih (fun hm => h (List.mem_cons_of_mem c hm))]

theorem newlineToSpace_id {l : List Char} (h : '\n' ∉ l) : newlineToSpace l = l := by
  unfold newlineToSpace
  induction l with
  | nil => rfl
  | cons c r ih =>
      rw [List.map_cons]
      have hc : c ≠ '\n' := fun hc => h (hc ▸ List.mem_cons_self c r)
      rw [if_neg hc, ih (fun hm => h (List.mem_cons_of_mem c hm))]

/-! ## Whitespace-collapse lemmas (for C6) -/

theorem mem_collapseWsAux {c : Char} :
    ∀ (l : List Char) (b : Bool), c ∈ collapseWsAux b l → c = ' ' ∨ c ∈ l := by
  intro l
  induction l with
  | nil => intro b h; simp [collapseWsAux] at h
  | cons d r ih =>
      intro b h
      simp only [collapseWsAux] at h
      by_cases hws : isJsSpace d = true
      · rw [if_pos hws] at h
        cases b with
        | true =>
            simp only [if_true] at h
            rcases ih true h with h' | h'
            · exact Or.inl h'
            · exact Or.inr (List.mem_cons_of_mem d h')
        | false =>
            simp only [Bool.false_eq_true, if_false] at h
            rcases List.mem_cons.mp h with h' | h'
            · exact Or.inl h'
            · rcases ih true h' with h'' | h''
              · exact Or.inl h''
              · exact Or.inr (List.mem_cons_of_mem d h'')
      · rw [if_neg hws] at h
        rcases List.mem_cons.mp h with h' | h'
        · exact Or.inr (h' ▸ List.mem_cons_self d r)
        · rcases ih false h' with h'' | h''
          · exact Or.inl h''
          · exact Or.inr (List.mem_cons_of_mem d h'')

/-- Every whitespace character the collapse emits is a plain space. -/
theorem collapseWsAux_ws_eq_space :
    ∀ (l : List Char) (b : Bool) (c : Char),
      c ∈ collapseWsAux b l → isJsSpace c = true → c = ' ' := by
  intro l
  induction l with
  | nil => intro b c h; simp [collapseWsAux] at h
  | cons d r ih =>
      intro b c h hws
      simp only [collapseWsAux] at h
      by_cases hd : isJsSpace d = true
      · rw [if_pos hd] at h
        cases b with
        | true => exact ih true c (by simpa using h) hws
        | false =>
            simp only [Bool.false_eq_true, if_false] at h
            rcases List.mem_cons.mp h with h' | h'
            · exact h'
            · exact ih true c h' hws
      · rw [if_neg hd] at h
        rcases List.mem_cons.mp h with h' | h'
        · exact absurd (h' ▸ hws) (by simp [hd])
        · exact ih false c h' hws

/-- After the collapse has just emitted (or is inside) a whitespace run, the
next emitted character is not whitespace. -/
theorem collapseWsAux_true_head :
    ∀ (l : List Char) (c : Char), (collapseWsAux true l).head? = some c →
      isJsSpace c = false := by
  intro l
  induction l with
  | nil => intro c h; simp [collapseWsAux] at h
  | cons d r ih =>
      intro c h
      simp only [collapseWsAux] at h
      by_cases hd : isJsSpace d = true
      · rw [if_pos hd] at h
        exact ih c (by simpa using h)
      · rw [if_neg hd] at h
        simp only [List.head?_cons, Option.some.injEq] at h
        exact h ▸ Bool.eq_false_iff.mpr hd

theorem collapsedWs_cons_of {c : Char} {t : List Char}
    (h1 : ∀ d, t.head? = some d → (isJsSpace c && isJsSpace d) = false)
    (h2 : collapsedWs t = true) : collapsedWs (c :: t) = true := by
  cases t with
  | nil => rfl
  | cons d r =>
      show (!(isJsSpace c && isJsSpace d) && collapsedWs (d :: r)) = true
      rw [h1 d rfl, h2]
      rfl

theorem collapsedWs_collapseWsAux :
    ∀ (l : List Char) (b : Bool), collapsedWs (collapseWsAux b l) = true := by
  intro l
  induction l with
  | nil => intro b; rfl
  | cons d r ih =>
      intro b
      simp only [collapseWsAux]
      by_cases hd : isJsSpace d = true
      · rw [if_pos hd]
        cases b with
        | true => simpa using ih true
        | false =>
            simp only [Bool.false_eq_true, if_false]
            refine collapsedWs_cons_of ?_ (ih true)
            intro e he
            rw [collapseWsAux_true_head r e he]
            simp
      · rw [if_neg hd]
        refine collapsedWs_cons_of ?_ (ih false)
        intro e he
        simp [hd]

theorem collapsedWs_tail {d : Char} {r : List Char}
    (h : collapsedWs (d :: r) = true) : collapsedWs r = true := by
  cases r with
  | nil => rfl
  | cons e t =>
      have h' : (!(isJsSpace d && isJsSpace e) && collapsedWs (e :: t)) = true := h
      exact (Bool.and_eq_true _ _ ▸ h').2

theorem collapsedWs_pair {d e : Char} {t : List Char}
    (h : collapsedWs (d :: e :: t) = true) : (isJsSpace d && isJsSpace e) = false := by
  have h' : (!(isJsSpace d && isJsSpace e) && collapsedWs (e :: t)) = true := h
  have h2 := (Bool.and_eq_true _ _ ▸ h').1
  cases hx : (isJsSpace d && isJsSpace e) with
  | false => rfl
  | true => rw [hx] at h2; exact absurd h2 (by decide)

theorem collapseWsAux_id :
    ∀ l : List Char,
      (∀ c ∈ l, isJsSpace c = true → c = ' ') → collapsedWs l = true →
      collapseWsAux false l = l ∧
      ((∀ c, l.head? = some c → isJsSpace c = false) → collapseWsAux true l = l) := by
  intro l
  induction l with
  | nil => intro _ _; exact ⟨rfl, fun _ => rfl⟩
  | cons d r ih =>
      intro hmem hcoll
      have hmem' : ∀ c ∈ r, isJsSpace c = true → c = ' ' :=
        fun c hc => hmem c (List.mem_cons_of_mem d hc)
      have ih' := ih hmem' (collapsedWs_tail hcoll)
      constructor
      · show (if isJsSpace d = true then
            (if false = true then collapseWsAux true r else ' ' :: collapseWsAux true r)
          else d :: collapseWsAux false r) = d :: r
        by_cases hd : isJsSpace d = true
        · rw [if_pos hd]
          simp only [Bool.false_eq_true, if_false]
          have hd' : d = ' ' := hmem d (List.mem_cons_self d r) hd
          have hr : collapseWsAux true r = r := by
            refine ih'.2 ?_
            intro c hc
            cases r with
            | nil => simp at hc
            | cons e t =>
                simp only [List.head?_cons, Option.some.injEq] at hc
                subst hc
                have hp := collapsedWs_pair hcoll
                rcases Bool.and_eq_false_iff.mp hp with h' | h'
                · exact absurd hd (by simp [h'])
                · exact h'
          rw [hr, hd']
        · rw [if_neg hd, ih'.1]
      · intro hh
        show (if isJsSpace d = true then
            (if true = true then collapseWsAux true r else ' ' :: collapseWsAux true r)
          else d :: collapseWsAux false r) = d :: r
        have hd := hh d rfl
        rw [if_neg (by simp [hd]), ih'.1]

theorem collapseWs_id {l : List Char}
    (hmem : ∀ c ∈ l, isJsSpace c = true → c = ' ')
    (hcoll : collapsedWs l = true) : collapseWs l = l :=
  (collapseWsAux_id l hmem hcoll).1

theorem collapsedWs_append_right {l₁ l₂ : List Char}
    (h : collapsedWs (l₁ ++ l₂) = true) : collapsedWs l₂ = true := by
  induction l₁ with
  | nil => simpa using h
  | cons c r ih => exact ih (collapsedWs_tail (by simpa using h))

theorem collapsedWs_append_left {l₁ l₂ : List Char}
    (h : collapsedWs (l₁ ++ l₂) = true) : collapsedWs l₁ = true := by
  induction l₁ with
  | nil => rfl
  | cons c r ih =>
      have hres := ih (collapsedWs_tail (by simpa using h))
      refine collapsedWs_cons_of ?_ hres
      intro e he
      cases r with
      | nil => simp at he
      | cons d t =>
          simp only [List.head?_cons, Option.some.injEq] at he
          subst he
          exact collapsedWs_pair (by simpa using h)

theorem trimChars_id {l : List Char}
    (hh : ∀ c, l.head? = some c → isJsSpace c = false)
    (hl : ∀ c, l.reverse.head? = some c → isJsSpace c = false) :
    trimChars l = l := by
  unfold trimChars
  have h1 : l.dropWhile isJsSpace = l := by
    cases l with
    | nil => rfl
    | cons d r => rw [List.dropWhile_cons, if_neg (by simp [hh d rfl])]
  rw [h1]
  have h2 : l.reverse.dropWhile isJsSpace = l.reverse := by
    cases hrev : l.reverse with
    | nil => simp
    | cons d r =>
        rw [List.dropWhile_cons, if_neg (by simp [hl d (by rw [hrev]; rfl)])]
  rw [h2, List.reverse_reverse]

/-- The space-normalising image of a string: whitespace becomes a plain
space, everything else is unchanged (used only to transport tag-freeness
through the collapse). -/
def toSpace (c : Char) : Char := if isJsSpace c then ' ' else c

theorem collapseWsAux_sublist_map :
    ∀ (l : List Char) (b : Bool),
      List.Sublist (collapseWsAux b l) (l.map toSpace) := by
  intro l
  induction l with
  | nil => intro b; simp [collapseWsAux]
  | cons d r ih =>
      intro b
      rw [List.map_cons]
      simp only [collapseWsAux]
      by_cases hd : isJsSpace d = true
      · rw [if_pos hd]
        have hds : toSpace d = ' ' := by simp [toSpace, hd]
        cases b with
        | true =>
            simp only [if_true]
            exact (ih true).trans (List.sublist_cons_self _ _)
        | false =>
            simp only [Bool.false_eq_true, if_false]
            rw [hds]
            exact (ih true).cons₂ ' '
      · rw [if_neg hd]
        have hds : toSpace d = d := by simp [toSpace, hd]
        rw [hds]
        exact (ih false).cons₂ d

theorem trimChars_append_eq (l : List Char) :
    trimChars l ++ ((l.dropWhile isJsSpace).reverse.takeWhile isJsSpace).reverse
      = l.dropWhile isJsSpace := by
  unfold trimChars
  set m := l.dropWhile isJsSpace
  calc (m.reverse.dropWhile isJsSpace).reverse ++ (m.reverse.takeWhile isJsSpace).reverse
      = (m.reverse.takeWhile isJsSpace ++ m.reverse.dropWhile isJsSpace).reverse := by
        rw [List.reverse_append]
    _ = m.reverse.reverse := by rw [List.takeWhile_append_dropWhile]
    _ = m := List.reverse_reverse m

theorem collapsedWs_trimChars {l : List Char} (h : collapsedWs l = true) :
    collapsedWs (trimChars l) = true := by
  have h1 : collapsedWs (l.dropWhile isJsSpace) = true := by
    have hsp := List.takeWhile_append_dropWhile (p := isJsSpace) (l := l)
    rw [← hsp] at h
    exact collapsedWs_append_right h
  rw [← trimChars_append_eq l] at h1
  exact collapsedWs_append_left h1

theorem backtick_not_mem_removeBacktick (l : List Char) : backtick ∉ removeBacktick l := by
  intro h
  rcases List.mem_filter.mp h with ⟨_, hp⟩
  simp at hp

/-- The characters of a speech-cleaned string: tag-free, star-free,
backtick-free, all whitespace collapsed to single interior spaces, and no
whitespace at either end. -/
theorem cleanText_props (x : List Char) :
    tagFree (cleanText x) ∧ '*' ∉ cleanText x ∧ backtick ∉ cleanText x ∧
    (∀ c ∈ cleanText x, isJsSpace c = true → c = ' ') ∧
    collapsedWs (cleanText x) = true ∧
    (∀ c, (cleanText x).head? = some c → isJsSpace c = false) ∧
    (∀ c, (cleanText x).reverse.head? = some c → isJsSpace c = false) := by
  have hy : cleanText x = trimChars (collapseWs (newlineToSpace (removeBacktick
      (removeStar (removeDoubleStar (removeTags x)))))) := rfl
  set z4 := removeBacktick (removeStar (removeDoubleStar (removeTags x))) with hz4
  set u := newlineToSpace z4 with hu
  set v := collapseWs u with hv
  have hyv : List.Sublist (cleanText x) v := by rw [hy]; exact trimChars_sublist v
  have hvu : List.Sublist v (u.map toSpace) := collapseWsAux_sublist_map u false
  have htf4 : tagFree z4 := by
    refine tagFree_of_sublist (List.filter_sublist _) ?_
    refine tagFree_of_sublist (List.filter_sublist _) ?_
    exact tagFree_of_sublist (removeDoubleStar_sublist _) (tagFree_removeTags x)
  have htfu : tagFree u := by
    rw [hu]
    unfold newlineToSpace
    refine tagFree_map ?_ ?_ htf4
    · intro c h
      by_cases hc : c = '\n'
      · rw [if_pos hc] at h; exact absurd h (by decide)
      · rwa [if_neg hc] at h
    · intro c h
      by_cases hc : c = '\n'
      · rw [if_pos hc] at h; exact absurd h (by decide)
      · rwa [if_neg hc] at h
  have htfv : tagFree v := by
    refine tagFree_of_sublist hvu ?_
    refine tagFree_map ?_ ?_ htfu
    · intro c h
      unfold toSpace at h
      by_cases hc : isJsSpace c = true
      · rw [if_pos hc] at h; exact absurd h (by decide)
      · rwa [if_neg hc] at h
    · intro c h
      unfold toSpace at h
      by_cases hc : isJsSpace c = true
      · rw [if_pos hc] at h; exact absurd h (by decide)
      · rwa [if_neg hc] at h
  have hmemu : ∀ {c : Char}, c ∈ u → c = ' ' ∨ c ∈ z4 := by
    intro c hc
    rw [hu] at hc
    unfold newlineToSpace at hc
    rcases List.mem_map.mp hc with ⟨b, hb, hfb⟩
    by_cases hbn : b = '\n'
    · rw [if_pos hbn] at hfb; exact Or.inl hfb.symm
    · rw [if_neg hbn] at hfb; exact Or.inr (hfb ▸ hb)
  have hstar : '*' ∉ cleanText x := by
    intro h
    have h1 := hyv.subset h
    rcases mem_collapseWsAux u false h1 with h2 | h2
    · exact absurd h2 (by decide)
    · rcases hmemu h2 with h3 | h3
      · exact absurd h3 (by decide)
      · have h4 := (List.filter_sublist _).subset h3
        exact star_not_mem_removeStar _ h4
  have htick : backtick ∉ cleanText x := by
    intro h
    have h1 := hyv.subset h
    rcases mem_collapseWsAux u false h1 with h2 | h2
    · exact absurd h2 (by decide)
    · rcases hmemu h2 with h3 | h3
      · exact absurd h3 (by decide)
      · exact backtick_not_mem_removeBacktick _ h3
  refine ⟨tagFree_of_sublist hyv htfv, hstar, htick, ?_, ?_, ?_, ?_⟩
  · intro c hc hws
    exact collapseWsAux_ws_eq_space u false c (hyv.subset hc) hws
  · rw [hy]
    exact collapsedWs_trimChars (collapsedWs_collapseWsAux u false)
  · intro c hc
    rw [hy] at hc
    exact trimChars_head_not_ws hc
  · intro c hc
    rw [hy] at hc
    exact trimChars_rev_head_not_ws hc

/-- C6: the speech-safe transform is idempotent. -/
theorem C6_cleanText_idempotent :
    ∀ x : List Char, cleanText (cleanText x) = cleanText x := by
  intro x
  obtain ⟨htf, hstar, htick, hws, hcoll, hh, hl⟩ := cleanText_props x
  set y := cleanText x with hy
  have hnl : '\n' ∉ y := fun hm => absurd (hws '\n' hm (by decide)) (by decide)
  have h1 : removeTags y = y := removeTags_id htf
  have h2 : removeDoubleStar y = y := removeDoubleStar_id hstar
  have h3 : removeStar y = y := by
    unfold removeStar
    rw [List.filter_eq_self.mpr]
    intro a ha
    simp only [Bool.not_eq_eq_eq_not, Bool.not_true, decide_eq_false_iff_not]
    exact fun hEq => hstar (hEq ▸ ha)
  have h4 : removeBacktick y = y := by
    unfold removeBacktick
    rw [List.filter_eq_self.mpr]
    intro a ha
    simp only [Bool.not_eq_eq_eq_not, Bool.not_true, decide_eq_false_iff_not]
    exact fun hEq => htick (hEq ▸ ha)
  have h5 : newlineToSpace y = y := newlineToSpace_id hnl
  have h6 : collapseWs y = y := collapseWs_id hws hcoll
  have h7 : trimChars y = y := trimChars_id hh hl
  show cleanText y = y
  unfold cleanText
  rw [h1, h2, h3, h4, h5, h6, h7]
